import Mathlib

/-!
Verification of the graph-construction and deduplication engine of the
Wikidata-to-CIDOC-CRM pipeline (relations/relations.py) and of the
directionality resolver of src/wiki2crm/map_and_align.py.

The rdflib Graph is modelled as a list of (subject, predicate, object)
string triples with set semantics: adding an existing triple is a no-op,
a fresh triple is appended.  URIs are the exact strings the Python code
builds; an RDF literal with language tag en is modelled by the string
tag "lit@en:" followed by its text, which keeps the literal space
disjoint from the URI space exactly as rdflib keeps Literal and URIRef
terms distinct.  SPARQL query results are passed to the processors as
row lists, mirroring the bindings lists the source iterates over, and
label resolution (the get_label helper) is passed in as a function
argument, mirroring the memoized lookup.
-/

/-! ## Python string primitives -/

/-- One step of str.split(sep): fold from the right, opening a new
segment at each separator. -/
def splitStep (sep : Char) (c : Char) (acc : List (List Char)) : List (List Char) :=
  match acc with
  | [] => [[c]]
  | h :: t => if c = sep then [] :: h :: t else (c :: h) :: t

/-- Models Python str.split(sep) at the character-list level. -/
def splitCL (sep : Char) (cs : List Char) : List (List Char) :=
  cs.foldr (splitStep sep) [[]]

/-- Models Python str.split(sep). -/
def splitStr (sep : Char) (s : String) : List String :=
  (splitCL sep s.data).map (fun l => ⟨l⟩)

/-- Models Python s.split(sep)[-1] (equally s.rsplit(sep, 1)[-1]). -/
def lastSegC (sep : Char) (s : String) : String :=
  (splitStr sep s).getLastD ""

/-- Models Python str.rstrip(c): drop trailing occurrences of c. -/
def rstripC (sep : Char) (s : String) : String :=
  ⟨(s.data.reverse.dropWhile (fun c => c = sep)).reverse⟩

/-- Models Python string comparison a < b (lexicographic by code point)
on character lists. -/
def strLtB : List Char → List Char → Bool
  | [], [] => false
  | [], _ :: _ => true
  | _ :: _, [] => false
  | a :: as, b :: bs =>
    if a.toNat < b.toNat then true
    else if b.toNat < a.toNat then false
    else strLtB as bs

/-- Models Python string comparison s < t. -/
def pyLt (s t : String) : Bool := strLtB s.data t.data

/-- Models Python `label or default` for an optional string (None and
the empty string are falsy). -/
def pyOr (label : Option String) (default : String) : String :=
  match label with
  | none => default
  | some s => if s = "" then default else s

/-! ## The triple store -/

abbrev Node := String

abbrev Triple := Node × Node × Node

/-- The rdflib Graph: a set of triples, modelled as a duplicate-free
list in insertion order. -/
abbrev Graph := List Triple

/-- Membership test, modelling `(s, p, o) in g`. -/
def memT (g : Graph) (t : Triple) : Bool :=
  g.any (fun x => x.1 == t.1 && x.2.1 == t.2.1 && x.2.2 == t.2.2)

/-- Wildcard membership test on the subject, modelling
`(s, None, None) in g` and `any(g.triples((s, None, None)))`. -/
def subjMem (g : Graph) (s : Node) : Bool :=
  g.any (fun x => x.1 == s)

/-- g.add(t): a no-op when the triple is already present, otherwise the
triple is appended. -/
def addT (g : Graph) (t : Triple) : Graph :=
  if memT g t then g else g ++ [t]

/-- All objects o with (s, p, o) in g, in graph order: models
g.objects(s, p). -/
def objectsOf (g : Graph) (s p : Node) : List Node :=
  g.filterMap (fun t => if t.1 = s ∧ t.2.1 = p then some t.2.2 else none)

/-- All subjects x with (x, p, o) in g, in graph order: models
g.subjects(p, o). -/
def subjectsOf (g : Graph) (p o : Node) : List Node :=
  g.filterMap (fun t => if t.2.1 = p ∧ t.2.2 = o then some t.1 else none)

/-- The first object o with (s, p, o) in g, if any: models
g.value(s, p). -/
def valueOf (g : Graph) (s p : Node) : Option Node :=
  (objectsOf g s p).head?

/-! ## Vocabulary -/

def WD_ENTITY : String := "http://www.wikidata.org/entity/"

def sappho : String := "https://sappho-digital.com/"

def ecrm (s : String) : String := "http://erlangen-crm.org/current/" ++ s

def lrmoo (s : String) : String := "http://iflastandards.info/ns/lrm/lrmoo/" ++ s

def intro (s : String) : String := "https://w3id.org/lso/intro/currentbeta#" ++ s

def prov (s : String) : String := "http://www.w3.org/ns/prov#" ++ s

def RDF_type : String := "http://www.w3.org/1999/02/22-rdf-syntax-ns#type"

def RDFS_label : String := "http://www.w3.org/2000/01/rdf-schema#label"

def OWL_sameAs : String := "http://www.w3.org/2002/07/owl#sameAs"

/-- An rdflib Literal with language tag en. -/
def lit (s : String) : String := "lit@en:" ++ s

/-! ## Entity registry (relations.py helper functions) -/

/-- Embeds add_identifier (relations.py 183-192). -/
def add_identifier (g : Graph) (entity : Node) (qid : String) : Graph :=
  let uri := sappho ++ "identifier/" ++ qid
  let pure := lastSegC '_' qid
  let g := addT g (uri, RDF_type, ecrm "E42_Identifier")
  let g := addT g (uri, RDFS_label, lit pure)
  let g := addT g (uri, ecrm "P2_has_type", sappho ++ "id_type/wikidata")
  let g := addT g (sappho ++ "id_type/wikidata", ecrm "P2i_is_type_of", uri)
  let g := addT g (uri, prov "wasDerivedFrom", WD_ENTITY ++ pure)
  let g := addT g (entity, ecrm "P1_is_identified_by", uri)
  addT g (uri, ecrm "P1i_identifies", entity)

/-- Embeds ensure_expression (relations.py 194-201).  The label
argument is optional with Python default None. -/
def ensure_expression (g : Graph) (qid : String) (label : Option String) :
    Graph × Node :=
  let uri := sappho ++ "expression/" ++ qid
  if memT g (uri, RDF_type, lrmoo "F2_Expression") then (g, uri)
  else
    let g := addT g (uri, RDF_type, lrmoo "F2_Expression")
    let g := addT g (uri, RDFS_label, lit ("Expression of " ++ pyOr label qid))
    let g := addT g (uri, OWL_sameAs, WD_ENTITY ++ qid)
    (g, uri)

/-- Embeds ensure_feature (relations.py 203-216). -/
def ensure_feature (g : Graph) (qid : String) (cls : Node) (label : String)
    (path : String) : Graph × Node :=
  let uri := sappho ++ path ++ "/" ++ qid
  if subjMem g uri then (g, uri)
  else
    let g := addT g (uri, RDF_type, cls)
    let g := addT g (uri, RDFS_label, lit label)
    let g := addT g (uri, OWL_sameAs, WD_ENTITY ++ qid)
    let g := add_identifier g uri qid
    (g, uri)

/-- Embeds add_interpretation (relations.py 218-247).  The Python
derived_from argument (one URIRef or an iterable of them) is passed as
a list. -/
def add_interpretation (g : Graph) (target : Node) (label : String)
    (derived_from : List Node) : Graph × Node × Node :=
  let tid := lastSegC '/' target
  let feat_uri := sappho ++ "feature/interpretation/" ++ tid
  let g :=
    if subjMem g feat_uri then g
    else
      let g := addT g (feat_uri, RDF_type, intro "INT_Interpretation")
      addT g (feat_uri, RDFS_label, lit label)
  let act_uri := sappho ++ "actualization/interpretation/" ++ tid
  let g :=
    if subjMem g act_uri then g
    else
      let g := addT g (act_uri, RDF_type, intro "INT2_ActualizationOfFeature")
      let g := addT g (act_uri, RDFS_label, lit label)
      let g := derived_from.foldl
        (fun g src => addT g (act_uri, prov "wasDerivedFrom",
          WD_ENTITY ++ lastSegC '/' src)) g
      let g := addT g (feat_uri, intro "R17i_featureIsActualizedIn", act_uri)
      addT g (act_uri, intro "R17_actualizesFeature", feat_uri)
  let g := addT g (act_uri, intro "R21_identifies", target)
  let g := addT g (target, intro "R21i_isIdentifiedBy", act_uri)
  (g, feat_uri, act_uri)

/-- Gets the penultimate element of a list; the Python parts[-2] would
raise IndexError on a shorter list, which no URI of this system ever
triggers, so the default stands in for the unreachable error. -/
def penultimateD (l : List String) : String :=
  match l.reverse with
  | _ :: t :: _ => t
  | _ => ""

/-- Embeds add_actualization (relations.py 249-275). -/
def add_actualization (g : Graph) (feature : Node) (expression : Node)
    (label : String) (relation : Node) : Graph × Node :=
  let parts := (splitStr '/' (rstripC '/' feature)).filter (fun p => p ≠ "feature")
  let typ := penultimateD parts
  let qid := parts.getLastD ""
  let fid := typ ++ "/" ++ qid
  let eid := lastSegC '/' expression
  let act := sappho ++ "actualization/" ++ fid ++ "_" ++ eid
  if subjMem g act then (g, act)
  else
    let g := addT g (act, RDF_type, intro "INT2_ActualizationOfFeature")
    let g := addT g (act, RDFS_label, lit label)
    let g := addT g (feature, intro "R17i_featureIsActualizedIn", act)
    let g := addT g (act, intro "R17_actualizesFeature", feature)
    let g := addT g (act, intro "R18i_actualizationFoundOn", expression)
    let g := addT g (expression, intro "R18_showsActualization", act)
    let g := addT g (act, intro "R24i_isRelatedEntity", relation)
    let g := addT g (relation, intro "R24_hasRelatedEntity", act)
    let g := addT g (expression, intro "R24i_isRelatedEntity", relation)
    let g := addT g (relation, intro "R24_hasRelatedEntity", expression)
    let g := (add_interpretation g act ("Interpretation of " ++ label)
      [WD_ENTITY ++ eid]).1
    (g, act)

/-- Embeds get_or_create_int31_relation (relations.py 277-299).
labelOf stands for the memoized get_label lookup. -/
def get_or_create_int31_relation (labelOf : String → String) (g : Graph)
    (expr1 expr2 : Node) : Graph × Option Node :=
  if expr1 = expr2 then (g, none)
  else
    let w1 := lastSegC '/' expr1
    let w2 := lastSegC '/' expr2
    let rel_uri :=
      if pyLt w1 w2 then sappho ++ "relation/" ++ (w1 ++ "_" ++ w2)
      else sappho ++ "relation/" ++ (w2 ++ "_" ++ w1)
    if memT g (rel_uri, RDF_type, intro "INT31_IntertextualRelation") then
      (g, some rel_uri)
    else
      let g := addT g (rel_uri, RDF_type, intro "INT31_IntertextualRelation")
      let g := addT g (rel_uri, RDFS_label,
        lit ("Intertextual relation between " ++ labelOf w1 ++ " and " ++ labelOf w2))
      let g := (add_interpretation g rel_uri
        ("Interpretation of intertextual relation between " ++ labelOf w1 ++
          " and " ++ labelOf w2) [expr1, expr2]).1
      (g, some rel_uri)

/-- Embeds build_graph (relations.py 152-180): the ontology header and
the Wikidata id-type node that main starts from (namespace binds add no
triples). -/
def build_graph : Graph :=
  let ontology_uri := "https://sappho-digital.com/ontology/relations"
  let g := addT [] (ontology_uri, RDF_type, "http://www.w3.org/2002/07/owl#Ontology")
  let g := addT g (ontology_uri, "http://www.w3.org/2002/07/owl#imports",
    "http://erlangen-crm.org/current/")
  let g := addT g (ontology_uri, "http://www.w3.org/2002/07/owl#imports",
    "https://cidoc-crm.org/extensions/lrmoo/owl/1.0/LRMoo_v1.0.owl")
  let g := addT g (ontology_uri, "http://www.w3.org/2002/07/owl#imports",
    "https://w3id.org/lso/intro/currentbeta#")
  let g := addT g (sappho ++ "id_type/wikidata", RDF_type, ecrm "E55_Type")
  let g := addT g (sappho ++ "id_type/wikidata", RDFS_label, lit "Wikidata ID")
  addT g (sappho ++ "id_type/wikidata", OWL_sameAs, WD_ENTITY ++ "Q43649390")

/-! ## Row grouping and ordering helpers

The processors group SPARQL rows with dict.setdefault: a Python dict
keeps insertion order, the per-key list (or set) accumulates in row
order.  A Python set of strings is modelled as a duplicate-free list in
first-insertion order; every place the source iterates a set it either
sorts it first or the iteration order is irrelevant to the claims. -/

/-- Append value w under key t, creating the key at the end on first
sight: models mp.setdefault(t, []).append(w). -/
def insertGroup : List (String × List String) → String → String →
    List (String × List String)
  | [], t, w => [(t, [w])]
  | (k, ws) :: rest, t, w =>
    if k = t then (k, ws ++ [w]) :: rest
    else (k, ws) :: insertGroup rest t w

/-- Group (work, target) rows by target: models the mp dict building
loops of the cluster processors. -/
def groupRows (rows : List (String × String)) : List (String × List String) :=
  rows.foldl (fun mp r => insertGroup mp r.2 r.1) []

/-- Insert value w under key t only if absent: models
mp.setdefault(t, set()).add(w). -/
def insertGroupSet : List (String × List String) → String → String →
    List (String × List String)
  | [], t, w => [(t, [w])]
  | (k, ws) :: rest, t, w =>
    if k = t then (k, if w ∈ ws then ws else ws ++ [w]) :: rest
    else (k, ws) :: insertGroupSet rest t w

/-- Group (work, key) rows by key into duplicate-free work lists:
models the mp dict-of-sets building loops. -/
def groupRowsSet (rows : List (String × String)) : List (String × List String) :=
  rows.foldl (fun mp r => insertGroupSet mp r.2 r.1) []

/-- Insert into an ascending list under Python string comparison. -/
def pyInsertSorted (x : String) : List String → List String
  | [] => [x]
  | y :: ys => if pyLt x y then x :: y :: ys else y :: pyInsertSorted x ys

/-- Models Python sorted() on a list of strings (insertion sort under
the code-point order; stable, and on the duplicate-free lists used here
produces the ascending enumeration of the set). -/
def pySort (l : List String) : List String :=
  l.foldr pyInsertSorted []

/-- All unordered pairs in list order: models
itertools.combinations(l, 2). -/
def pairs2 {α : Type} : List α → List (α × α)
  | [] => []
  | x :: xs => xs.map (fun y => (x, y)) ++ pairs2 xs

/-! ## Feature processors (relations.py 301-859)

Each processor receives the rows its SPARQL query returned (each
binding already reduced to the trailing QID, as the source does with
rsplit) and the label lookup, and folds its additions into the
graph. -/

/-- Embeds process_int31 (relations.py 302-364): rows are the combined
(w1, w2, p) results of the forward and backward queries; rows with
w1 = w2 are dropped while building the tripel list, then a seen-set
deduplicates, and each kept row materializes a bare relation node
(type and label only) under the lexicographically sorted id. -/
def process_int31 (labelOf : String → String)
    (rows : List (String × String × String)) (g : Graph) : Graph :=
  let tripel := rows.filter (fun r => r.1 ≠ r.2.1)
  (tripel.foldl
    (fun (st : Graph × List (String × String × String)) r =>
      let g := st.1
      let seen := st.2
      if r ∈ seen then (g, seen)
      else
        let seen := seen ++ [r]
        let w1 := r.1
        let w2 := r.2.1
        let p := r.2.2
        let uri := if pyLt w1 w2 then w1 ++ "_" ++ w2 else w2 ++ "_" ++ w1
        let rel := sappho ++ "relation/" ++ uri
        if memT g (rel, RDF_type, intro "INT31_IntertextualRelation") then (g, seen)
        else
          let g := addT g (rel, RDF_type, intro "INT31_IntertextualRelation")
          let g := addT g (rel, RDFS_label,
            lit ("Intertextual relation (" ++ p ++ ") between " ++
              labelOf w1 ++ " and " ++ labelOf w2))
          (g, seen))
    (g, [])).1

/-- The common body of the three cluster processors process_plots,
process_topics and process_motifs (relations.py 366-521), which differ
only in the feature class, the label suffix and the feature path; the
per-cluster and per-pair logic is line for line the same. -/
def processCluster (labelOf : String → String) (cls : Node)
    (suffix path : String) (rows : List (String × String)) (g : Graph) : Graph :=
  (groupRows rows).foldl
    (fun g tw =>
      let tgt := tw.1
      let works := tw.2
      let raw_lbl := labelOf tgt
      let feat_lbl := raw_lbl ++ suffix
      let fr := ensure_feature g tgt cls feat_lbl path
      let g := fr.1
      let feat := fr.2
      (pairs2 works).foldl
        (fun g ww =>
          let w1 := ww.1
          let w2 := ww.2
          let e1 := ensure_expression g w1 (some (labelOf w1))
          let g := e1.1
          let expr1 := e1.2
          let e2 := ensure_expression g w2 (some (labelOf w2))
          let g := e2.1
          let expr2 := e2.2
          let rr := get_or_create_int31_relation labelOf g expr1 expr2
          let g := rr.1
          match rr.2 with
          | none => g
          | some rel =>
            let g :=
              if memT g (feat, intro "R22_providesSimilarityForRelation", rel) then g
              else
                let g := addT g (feat, intro "R22_providesSimilarityForRelation", rel)
                addT g (rel, intro "R22i_relationIsBasedOnSimilarity", feat)
            let g := (add_actualization g feat expr1
              (raw_lbl ++ " in " ++ labelOf w1) rel).1
            (add_actualization g feat expr2
              (raw_lbl ++ " in " ++ labelOf w2) rel).1)
        g)
    g

/-- Embeds process_plots (relations.py 366-417). -/
def process_plots (labelOf : String → String) (rows : List (String × String))
    (g : Graph) : Graph :=
  processCluster labelOf (intro "INT_Plot") " (plot)" "feature/plot" rows g

/-- Embeds process_topics (relations.py 419-470). -/
def process_topics (labelOf : String → String) (rows : List (String × String))
    (g : Graph) : Graph :=
  processCluster labelOf (intro "INT_Topic") " (topic)" "feature/topic" rows g

/-- Embeds process_motifs (relations.py 472-521). -/
def process_motifs (labelOf : String → String) (rows : List (String × String))
    (g : Graph) : Graph :=
  processCluster labelOf (intro "INT_Motif") " (motif)" "feature/motif" rows g

/-- Embeds process_person (relations.py 523-582): rows are the
(work, person) bindings.  For each person shared by at least two works
the person node is (re-)added unconditionally, the reference feature is
created once, and along each sorted pair add_actualization is invoked
twice per side (the second call is a no-op returning the existing id)
before the P67 reference edges are appended. -/
def process_person (labelOf : String → String) (rows : List (String × String))
    (g : Graph) : Graph :=
  (groupRowsSet rows).foldl
    (fun g pw =>
      let p := pw.1
      let works := pw.2
      if works.length < 2 then g
      else
        let name := labelOf p
        let p_uri := sappho ++ "person/" ++ p
        let g := addT g (p_uri, RDF_type, ecrm "E21_Person")
        let g := addT g (p_uri, RDFS_label, lit name)
        let g := addT g (p_uri, OWL_sameAs, WD_ENTITY ++ p)
        let g := add_identifier g p_uri p
        let feat := sappho ++ "feature/person_ref/" ++ p
        let g :=
          if subjMem g feat then g
          else
            let g := addT g (feat, RDF_type, intro "INT18_Reference")
            addT g (feat, RDFS_label, lit ("Reference to " ++ name ++ " (person)"))
        (pairs2 (pySort works)).foldl
          (fun g ww =>
            let w1 := ww.1
            let w2 := ww.2
            let e1 := ensure_expression g w1 (some (labelOf w1))
            let g := e1.1
            let expr1 := e1.2
            let e2 := ensure_expression g w2 (some (labelOf w2))
            let g := e2.1
            let expr2 := e2.2
            let rr := get_or_create_int31_relation labelOf g expr1 expr2
            let g := rr.1
            match rr.2 with
            | none => g
            | some rel =>
              let g :=
                if memT g (feat, intro "R22_providesSimilarityForRelation", rel) then g
                else
                  let g := addT g (feat, intro "R22_providesSimilarityForRelation", rel)
                  addT g (rel, intro "R22i_relationIsBasedOnSimilarity", feat)
              let g := (add_actualization g feat expr1
                (name ++ " in " ++ labelOf w1) rel).1
              let a1 := add_actualization g feat expr1
                ("Reference to " ++ name ++ " in " ++ labelOf w1) rel
              let g := a1.1
              let act1 := a1.2
              let g := addT g (act1, ecrm "P67_refers_to", p_uri)
              let g := addT g (p_uri, ecrm "P67i_is_referred_to_by", act1)
              let g := (add_actualization g feat expr2
                (name ++ " in " ++ labelOf w2) rel).1
              let a2 := add_actualization g feat expr2
                ("Reference to " ++ name ++ " in " ++ labelOf w2) rel
              let g := a2.1
              let act2 := a2.2
              let g := addT g (act2, ecrm "P67_refers_to", p_uri)
              addT g (p_uri, ecrm "P67i_is_referred_to_by", act2))
          g)
    g

/-- Embeds process_place (relations.py 584-643): like process_person
but with place nodes, and the P67 edges attach to manually rebuilt
actualization ids under actualization/place_ref/. -/
def process_place (labelOf : String → String) (rows : List (String × String))
    (g : Graph) : Graph :=
  (groupRowsSet rows).foldl
    (fun g pw =>
      let pl := pw.1
      let works := pw.2
      if works.length < 2 then g
      else
        let name := labelOf pl
        let p_uri := sappho ++ "place/" ++ pl
        let g := addT g (p_uri, RDF_type, ecrm "E53_Place")
        let g := addT g (p_uri, RDFS_label, lit name)
        let g := addT g (p_uri, OWL_sameAs, WD_ENTITY ++ pl)
        let g := add_identifier g p_uri pl
        let feat := sappho ++ "feature/place_ref/" ++ pl
        let g :=
          if subjMem g feat then g
          else
            let g := addT g (feat, RDF_type, intro "INT18_Reference")
            addT g (feat, RDFS_label, lit ("Reference to " ++ name ++ " (place)"))
        (pairs2 (pySort works)).foldl
          (fun g ww =>
            let w1 := ww.1
            let w2 := ww.2
            let e1 := ensure_expression g w1 (some (labelOf w1))
            let g := e1.1
            let expr1 := e1.2
            let e2 := ensure_expression g w2 (some (labelOf w2))
            let g := e2.1
            let expr2 := e2.2
            let rr := get_or_create_int31_relation labelOf g expr1 expr2
            let g := rr.1
            match rr.2 with
            | none => g
            | some rel =>
              let g :=
                if memT g (feat, intro "R22_providesSimilarityForRelation", rel) then g
                else
                  let g := addT g (feat, intro "R22_providesSimilarityForRelation", rel)
                  addT g (rel, intro "R22i_relationIsBasedOnSimilarity", feat)
              let g := (add_actualization g feat expr1
                (name ++ " in " ++ labelOf w1) rel).1
              let fid := lastSegC '/' feat
              let eid1 := lastSegC '/' expr1
              let act1 := sappho ++ "actualization/place_ref/" ++ fid ++ "_" ++ eid1
              let g := addT g (act1, ecrm "P67_refers_to", p_uri)
              let g := addT g (p_uri, ecrm "P67i_is_referred_to_by", act1)
              let g := (add_actualization g feat expr2
                (name ++ " in " ++ labelOf w2) rel).1
              let eid2 := lastSegC '/' expr2
              let act2 := sappho ++ "actualization/place_ref/" ++ fid ++ "_" ++ eid2
              let g := addT g (act2, ecrm "P67_refers_to", p_uri)
              addT g (p_uri, ecrm "P67i_is_referred_to_by", act2))
          g)
    g

/-- Embeds process_work_references (relations.py 645-708): rows are the
(src, tgt) bindings; qids is the input QID list.  Sources also cited as
targets are excluded from the target sets, each kept source gets a
reference feature, and each (src, tgt) pair funnels through the shared
relation and actualization primitives plus a manual P67 edge. -/
def process_work_references (labelOf : String → String) (qids : List String)
    (rows : List (String × String)) (g : Graph) : Graph :=
  let all_srcs := (rows.map Prod.fst).filter (fun s => s ∈ qids)
  let ref_map := rows.foldl
    (fun mp r =>
      if r.1 ∈ qids ∧ r.2 ∈ qids ∧ r.2 ∉ all_srcs then insertGroupSet mp r.1 r.2
      else mp) []
  ref_map.foldl
    (fun g st =>
      let src := st.1
      let tgts := st.2
      let src_lbl := labelOf src
      let feat := sappho ++ "feature/work_ref/" ++ src
      let g :=
        if memT g (feat, RDF_type, intro "INT18_Reference") then g
        else
          let g := addT g (feat, RDF_type, intro "INT18_Reference")
          addT g (feat, RDFS_label,
            lit ("Reference to " ++ src_lbl ++ " (expression)"))
      let es := ensure_expression g src (some src_lbl)
      let g := es.1
      let expr_src := es.2
      (pySort tgts).foldl
        (fun g tgt =>
          let tgt_lbl := labelOf tgt
          let et := ensure_expression g tgt (some tgt_lbl)
          let g := et.1
          let expr_tgt := et.2
          let rr := get_or_create_int31_relation labelOf g expr_src expr_tgt
          let g := rr.1
          match rr.2 with
          | none => g
          | some rel =>
            let g :=
              if memT g (feat, intro "R22_providesSimilarityForRelation", rel) then g
              else
                let g := addT g (feat, intro "R22_providesSimilarityForRelation", rel)
                addT g (rel, intro "R22i_relationIsBasedOnSimilarity", feat)
            let g := (add_actualization g feat expr_tgt
              (src_lbl ++ " in " ++ tgt_lbl) rel).1
            let fid := lastSegC '/' feat
            let eid := lastSegC '/' expr_tgt
            let act := sappho ++ "actualization/work_ref/" ++ fid ++ "_" ++ eid
            let g := addT g (act, ecrm "P67_refers_to", expr_src)
            addT g (expr_src, ecrm "P67i_is_referred_to_by", act))
        g)
    g

/-- Embeds ensure_person_reference (relations.py 710-726). -/
def ensure_person_reference (labelOf : String → String) (g : Graph)
    (char_qid : String) : Graph × Node × Node :=
  let p_uri := sappho ++ "person/" ++ char_qid
  let feat := sappho ++ "feature/person_ref/" ++ char_qid
  let name := labelOf char_qid
  let g :=
    if memT g (p_uri, RDF_type, ecrm "E21_Person") then g
    else
      let g := addT g (p_uri, RDF_type, ecrm "E21_Person")
      let g := addT g (p_uri, RDFS_label, lit name)
      let g := addT g (p_uri, OWL_sameAs, WD_ENTITY ++ char_qid)
      add_identifier g p_uri char_qid
  let g :=
    if memT g (feat, RDF_type, intro "INT18_Reference") then g
    else
      let g := addT g (feat, RDF_type, intro "INT18_Reference")
      addT g (feat, RDFS_label, lit ("Reference to " ++ name ++ " (person)"))
  (g, p_uri, feat)

/-- Embeds process_characters (relations.py 728-809): rows are the
(work, character) bindings; isPerson models the per-character SPARQL
existence probe for instance-of human. -/
def process_characters (labelOf : String → String) (isPerson : String → Bool)
    (rows : List (String × String)) (g : Graph) : Graph :=
  (groupRowsSet rows).foldl
    (fun g cw =>
      let char := cw.1
      let works := cw.2
      if works.length < 2 then g
      else
        let lbl := labelOf char
        let pr :=
          if isPerson char then
            let r := ensure_person_reference labelOf g char
            (r.1, some r.2.1)
          else (g, none)
        let g := pr.1
        let p_node := pr.2
        let feat := sappho ++ "feature/character/" ++ char
        let g :=
          if subjMem g feat then g
          else
            let g := addT g (feat, RDF_type, intro "INT_Character")
            let g := addT g (feat, RDFS_label, lit lbl)
            let g := addT g (feat, OWL_sameAs, WD_ENTITY ++ char)
            add_identifier g feat char
        (pairs2 (pySort works)).foldl
          (fun g ww =>
            let w1 := ww.1
            let w2 := ww.2
            let e1 := ensure_expression g w1 (some (labelOf w1))
            let g := e1.1
            let expr1 := e1.2
            let e2 := ensure_expression g w2 (some (labelOf w2))
            let g := e2.1
            let expr2 := e2.2
            let rr := get_or_create_int31_relation labelOf g expr1 expr2
            let g := rr.1
            match rr.2 with
            | none => g
            | some rel =>
              let g :=
                if memT g (feat, intro "R22_providesSimilarityForRelation", rel) then g
                else
                  let g := addT g (feat, intro "R22_providesSimilarityForRelation", rel)
                  addT g (rel, intro "R22i_relationIsBasedOnSimilarity", feat)
              let a1 := add_actualization g feat expr1
                (lbl ++ " in " ++ labelOf w1) rel
              let g := a1.1
              let act1 := a1.2
              let a2 := add_actualization g feat expr2
                (lbl ++ " in " ++ labelOf w2) rel
              let g := a2.1
              let act2 := a2.2
              let g :=
                match p_node with
                | none => g
                | some pn =>
                  let g := addT g (act1, ecrm "P67_refers_to", pn)
                  let g := addT g (pn, ecrm "P67i_is_referred_to_by", act1)
                  let g := addT g (act2, ecrm "P67_refers_to", pn)
                  addT g (pn, ecrm "P67i_is_referred_to_by", act2)
              let g := (add_interpretation g act1
                ("Interpretation of " ++ lbl ++ " in " ++ labelOf w1)
                [WD_ENTITY ++ lastSegC '/' expr1]).1
              (add_interpretation g act2
                ("Interpretation of " ++ lbl ++ " in " ++ labelOf w2)
                [WD_ENTITY ++ lastSegC '/' expr2]).1)
          g)
    g

/-- Embeds process_citations (relations.py 811-859): rows are the
(src, tgt) bindings; each row is normalized to a sorted pair, the pair
set is deduplicated (modelled in first-insertion order), and each pair
gets a relation plus one text passage per side with R30 and R24
links. -/
def process_citations (labelOf : String → String) (rows : List (String × String))
    (g : Graph) : Graph :=
  let pair_set := rows.foldl
    (fun acc r =>
      let pr := if pyLt r.2 r.1 then (r.2, r.1) else (r.1, r.2)
      if pr ∈ acc then acc else acc ++ [pr]) []
  pair_set.foldl
    (fun g ww =>
      let w1 := ww.1
      let w2 := ww.2
      let e1 := ensure_expression g w1 (some (labelOf w1))
      let g := e1.1
      let expr1 := e1.2
      let e2 := ensure_expression g w2 (some (labelOf w2))
      let g := e2.1
      let expr2 := e2.2
      let rr := get_or_create_int31_relation labelOf g expr1 expr2
      let g := rr.1
      match rr.2 with
      | none => g
      | some rel =>
        [(w1, expr1), (w2, expr2)].foldl
          (fun g xe =>
            let x := xe.1
            let expr := xe.2
            let other := if x = w1 then w2 else w1
            let tp_qid := x ++ "_" ++ other
            let tp_uri := sappho ++ "textpassage/" ++ tp_qid
            let tp_label := "Text passage in " ++ labelOf x
            let g :=
              if subjMem g tp_uri then g
              else
                let g := addT g (tp_uri, RDF_type, intro "INT21_TextPassage")
                let g := addT g (tp_uri, RDFS_label, lit tp_label)
                addT g (tp_uri, prov "wasDerivedFrom", WD_ENTITY ++ other)
            let g := addT g (expr, intro "R30_hasTextPassage", tp_uri)
            let g := addT g (tp_uri, intro "R30i_isTextPassageOf", expr)
            let g := addT g (rel, intro "R24_hasRelatedEntity", tp_uri)
            addT g (tp_uri, intro "R24i_isRelatedEntity", rel))
          g)
    g

/-! ## Resilient fetch client (relations.py 50-149)

Durations are rationals (Python floats never leave small decimal
values here).  The HTTP-date branch of the Retry-After parser wraps
email.utils.parsedate_to_datetime; that library parser is abstracted as
a function from the header text to an optional timestamp in seconds
(None models the exception path of the try block), and the current
time is a timestamp parameter.  A digit check models str.isdigit on
the ASCII digit strings this header carries. -/

/-- Models Python str.strip(): whitespace removed from both ends. -/
def pyStrip (s : String) : String :=
  ⟨((s.data.dropWhile Char.isWhitespace).reverse.dropWhile
    Char.isWhitespace).reverse⟩

/-- Models Python str.isdigit: nonempty and all digits. -/
def pyIsDigit (s : String) : Bool :=
  !s.data.isEmpty && s.data.all Char.isDigit

/-- The numeric value of a digit string. -/
def digitsToNat (cs : List Char) : Nat :=
  cs.foldl (fun n c => 10 * n + (c.toNat - 48)) 0

/-- Embeds _parse_retry_after (relations.py 50-65).  parsedate maps the
header text to a timestamp in seconds when it is a parseable HTTP date
(None models the raising branch caught by the except), now is the
current timestamp in seconds. -/
def _parse_retry_after (parsedate : String → Option ℚ) (now : ℚ)
    (header_val : String) : Option ℚ :=
  if header_val = "" then none
  else
    let header_val := pyStrip header_val
    if pyIsDigit header_val then some ((digitsToNat header_val.data : ℕ) : ℚ)
    else
      match parsedate header_val with
      | some dt => some (max 0 (dt - now))
      | none => none

/-- An HTTP response as the retry loop sees it: status code plus the
Retry-After header (empty string when absent, as headers.get defaults
to). -/
structure Response where
  status : Nat
  retryAfter : String
  deriving DecidableEq, Repr

instance exceptDecEq {ε α : Type} [DecidableEq ε] [DecidableEq α] :
    DecidableEq (Except ε α) := fun
  | Except.error a, Except.error b =>
    if h : a = b then isTrue (by rw [h]) else isFalse (by simp [h])
  | Except.error _, Except.ok _ => isFalse (by simp)
  | Except.ok _, Except.error _ => isFalse (by simp)
  | Except.ok a, Except.ok b =>
    if h : a = b then isTrue (by rw [h]) else isFalse (by simp [h])

/-- The observable outcome of the retry loop: the returned response or
the raised status, the number of requests issued, and the sleeps
performed between attempts, in order. -/
structure HttpOutcome where
  result : Except Nat Response
  attempts : Nat
  sleeps : List ℚ
  deriving DecidableEq, Repr

/-- One descent of the while-True loop of http_request_with_retry
(relations.py 101-126).  respAt gives the response of the n-th request
(1-based), modelling SESSION.request.  The loop in the source runs
unbounded; fuel only pads the model for statuses below 400 outside
ok_statuses, on which raise_for_status is a no-op and the source loops
forever (fuel 0 stands for that divergence and is never reached on the
paths the claims touch). -/
def httpGo (parsedate : String → Option ℚ) (now : ℚ) (respAt : Nat → Response)
    (ok_statuses : List Nat) (max_retries : Nat) :
    Nat → Nat → HttpOutcome
  | 0, _ => ⟨Except.error 0, 0, []⟩
  | fuel + 1, tries0 =>
    let tries := tries0 + 1
    let resp := respAt tries
    if resp.status ∈ ok_statuses then ⟨Except.ok resp, 1, []⟩
    else if resp.status = 429 then
      let retry_after := _parse_retry_after parsedate now resp.retryAfter
      let wait_s := retry_after.getD 5
      if max_retries ≤ tries then ⟨Except.error resp.status, 1, []⟩
      else
        let rest := httpGo parsedate now respAt ok_statuses max_retries fuel tries
        ⟨rest.result, rest.attempts + 1, wait_s :: rest.sleeps⟩
    else if 500 ≤ resp.status ∧ resp.status < 600 then
      let parsed := _parse_retry_after parsedate now resp.retryAfter
      let backoff := min 10 ((3 / 2 : ℚ) ^ (tries - 1))
      let retry_after :=
        match parsed with
        | some w => if w = 0 then backoff else w
        | none => backoff
      if max_retries ≤ tries then ⟨Except.error resp.status, 1, []⟩
      else
        let rest := httpGo parsedate now respAt ok_statuses max_retries fuel tries
        ⟨rest.result, rest.attempts + 1, retry_after :: rest.sleeps⟩
    else if 400 ≤ resp.status then ⟨Except.error resp.status, 1, []⟩
    else
      let rest := httpGo parsedate now respAt ok_statuses max_retries fuel tries
      ⟨rest.result, rest.attempts + 1, rest.sleeps⟩

/-- Embeds http_request_with_retry (relations.py 88-126) for a fixed
request: the method, url, params and headers are summarized by respAt.
The fuel max_retries + 1 is enough for every terminating path of the
source loop. -/
def http_request_with_retry (parsedate : String → Option ℚ) (now : ℚ)
    (respAt : Nat → Response) (ok_statuses : List Nat) (max_retries : Nat) :
    HttpOutcome :=
  httpGo parsedate now respAt ok_statuses max_retries (max_retries + 1) 0

/-- Embeds get_label (relations.py 136-149): labels gives the query
result for (qid, language) as the optional single binding; the
preferred language is tried, then the de fallback, then the qid itself
is returned. -/
def get_label (labels : String → String → Option String) (qid : String)
    (lang : String) : String :=
  match labels qid lang with
  | some l => l
  | none =>
    match labels qid "de" with
    | some l => l
    | none => qid

/-! ## Directionality resolver (map_and_align.py 180-194 and 663-695)

The vocabulary pieces of map_and_align.py that the resolver touches. -/

def LRMOO_R17i_was_created_by : String := lrmoo "R17i_was_created_by"

def LRMOO_R4i_is_embodied_in : String := lrmoo "R4i_is_embodied_in"

def LRMOO_R24_created : String := lrmoo "R24_created"

def ECRM_P4_has_timespan : String := ecrm "P4_has_time-span"

/-- Models Python int(str(x)) on an optional literal: strips
whitespace, accepts an optional sign followed by digits, and fails
(ValueError) otherwise; int(str(None)) is int("None"), which fails. -/
def pyIntOfValue (v : Option String) : Except Unit Int :=
  let s := pyStrip (match v with | some s => s | none => "None")
  match s.data with
  | '-' :: rest =>
    if !rest.isEmpty && rest.all Char.isDigit then
      Except.ok (-(digitsToNat rest : Int))
    else Except.error ()
  | '+' :: rest =>
    if !rest.isEmpty && rest.all Char.isDigit then
      Except.ok (digitsToNat rest : Int)
    else Except.error ()
  | cs =>
    if !cs.isEmpty && cs.all Char.isDigit then
      Except.ok (digitsToNat cs : Int)
    else Except.error ()

/-- Strips the literal tag of this model from a label, since Python
str() of an rdflib Literal is its bare text. -/
def stripLitTag (l : String) : String :=
  match l.data with
  | 'l' :: 'i' :: 't' :: '@' :: 'e' :: 'n' :: ':' :: rest => ⟨rest⟩
  | _ => l

/-- Embeds extract_year (map_and_align.py 181-182) applied to the
g.value result. -/
def extract_year (label_lit : Option Node) : Except Unit Int :=
  pyIntOfValue (label_lit.map stripLitTag)

/-- Embeds get_creation_year (map_and_align.py 184-194): the first
time-span of the first creation event that has one decides; otherwise
the manifestation fallback; otherwise no year.  An unparseable label
propagates the ValueError. -/
def get_creation_year (g : Graph) (expr : Node) : Except Unit (Option Int) :=
  let ecs := objectsOf g expr LRMOO_R17i_was_created_by
  let tss := ecs.flatMap (fun ec => objectsOf g ec ECRM_P4_has_timespan)
  match tss with
  | ts :: _ => (extract_year (valueOf g ts RDFS_label)).map some
  | [] =>
    let manifs := objectsOf g expr LRMOO_R4i_is_embodied_in
    let mcs := manifs.flatMap (fun m => subjectsOf g LRMOO_R24_created m)
    let tss2 := mcs.flatMap (fun mc => objectsOf g mc ECRM_P4_has_timespan)
    match tss2 with
    | ts :: _ => (extract_year (valueOf g ts RDFS_label)).map some
    | [] => Except.ok none

/-- The text-passage participants of a relation (map_and_align.py
669-674): the related entities that carry an R30i text-passage-of
value, paired with that expression. -/
def tpExprOf (g : Graph) (rel : Node) : List (Node × Node) :=
  (objectsOf g rel (intro "R24_hasRelatedEntity")).filterMap
    (fun tp => (valueOf g tp (intro "R30i_isTextPassageOf")).map (fun e => (tp, e)))

/-- One iteration of the direction-gathering loop (map_and_align.py
668-695) for one relation: none is a skip; the two creation-year
lookups run in source order, so a ValueError from the first
propagates before the second runs, and a ValueError from the second
propagates even when the first found no year. -/
def dirStep (g : Graph) (rel : Node) :
    Except Unit (Option (Node × Node × Node × Node)) :=
  let tp_expr := tpExprOf g rel
  if tp_expr.length ≠ 2 then Except.ok none
  else
    let exprs := (tp_expr.map Prod.snd).dedup
    if exprs.length ≠ 2 then Except.ok none
    else
      match tp_expr with
      | (tp1, expr1) :: (tp2, expr2) :: _ =>
        match get_creation_year g expr1, get_creation_year g expr2 with
        | Except.error e, _ => Except.error e
        | _, Except.error e => Except.error e
        | Except.ok (some y1), Except.ok (some y2) =>
          if y1 < y2 then Except.ok (some (expr2, expr1, tp2, tp1))
          else Except.ok (some (expr1, expr2, tp1, tp2))
        | _, _ => Except.ok none
      | _ => Except.ok none

/-- The full direction-gathering pass (map_and_align.py 665-695): fold
dirStep over the relation subjects, collecting the non-skipped
quadruples (younger expression, older expression, younger passage,
older passage) in iteration order; an error aborts the fold as the
uncaught exception aborts the Python loop. -/
def gatherDirections (g : Graph) :
    Except Unit (List (Node × Node × Node × Node)) :=
  (subjectsOf g RDF_type (intro "INT31_IntertextualRelation")).foldl
    (fun acc rel =>
      match acc with
      | Except.error e => Except.error e
      | Except.ok l =>
        match dirStep g rel with
        | Except.error e => Except.error e
        | Except.ok none => Except.ok l
        | Except.ok (some d) => Except.ok (l ++ [d]))
    (Except.ok [])

/-! ## Orchestration (relations.py 868-920)

The main loop applies each processor in turn to the one shared graph;
an exception from a processor (for instance retry exhaustion reaching
run_sparql) propagates out of the plain for loop, so the run aborts at
the first failing processor.  A pass is modelled as a graph
transformer that may raise. -/

/-- The processor loop of main: fold the passes over the shared graph,
propagating the first raised error, exactly as a Python for loop
does. -/
def runPasses : List (Graph → Except Unit Graph) → Graph → Except Unit Graph
  | [], g => Except.ok g
  | p :: ps, g =>
    match p g with
    | Except.error e => Except.error e
    | Except.ok g2 => runPasses ps g2

/-- Character-list level test that p is an initial run of s. -/
def hasPreCL : List Char → List Char → Bool
  | [], _ => true
  | _ :: _, [] => false
  | p :: ps, c :: cs => p == c && hasPreCL ps cs

/-- Tests that the string p is an initial run of the string s. -/
def strHasPre (p s : String) : Bool := hasPreCL p.data s.data

/-! ## Processor passes as data

A pass is one processor invocation with the query rows it received;
running main is folding the passes over the shared graph (relations.py
880-892). -/

inductive Pass where
  | int31 (labelOf : String → String) (rows : List (String × String × String))
  | plots (labelOf : String → String) (rows : List (String × String))
  | topics (labelOf : String → String) (rows : List (String × String))
  | motifs (labelOf : String → String) (rows : List (String × String))
  | person (labelOf : String → String) (rows : List (String × String))
  | place (labelOf : String → String) (rows : List (String × String))
  | work_refs (labelOf : String → String) (qids : List String)
      (rows : List (String × String))
  | characters (labelOf : String → String) (isPerson : String → Bool)
      (rows : List (String × String))
  | citations (labelOf : String → String) (rows : List (String × String))

/-- Run one pass against the shared graph. -/
def applyPass : Pass → Graph → Graph
  | Pass.int31 lo rows, g => process_int31 lo rows g
  | Pass.plots lo rows, g => process_plots lo rows g
  | Pass.topics lo rows, g => process_topics lo rows g
  | Pass.motifs lo rows, g => process_motifs lo rows g
  | Pass.person lo rows, g => process_person lo rows g
  | Pass.place lo rows, g => process_place lo rows g
  | Pass.work_refs lo qids rows, g => process_work_references lo qids rows g
  | Pass.characters lo ip rows, g => process_characters lo ip rows g
  | Pass.citations lo rows, g => process_citations lo rows g

/-- Run a sequence of passes, as the main loop does. -/
def applyPasses (ps : List Pass) (g : Graph) : Graph :=
  ps.foldl (fun g p => applyPass p g) g

/-- A well-formed external id: no slash and no underscore, as the
QIDs of the upstream source (letter Q followed by digits) always
satisfy. -/
def goodStr (s : String) : Prop := '/' ∉ s.data ∧ '_' ∉ s.data

/-- The work ids a pass feeds into relation ids are all
well-formed. -/
def goodPass : Pass → Prop
  | Pass.int31 _ rows => ∀ r ∈ rows, goodStr r.1 ∧ goodStr r.2.1
  | Pass.plots _ rows => ∀ r ∈ rows, goodStr r.1
  | Pass.topics _ rows => ∀ r ∈ rows, goodStr r.1
  | Pass.motifs _ rows => ∀ r ∈ rows, goodStr r.1
  | Pass.person _ rows => ∀ r ∈ rows, goodStr r.1
  | Pass.place _ rows => ∀ r ∈ rows, goodStr r.1
  | Pass.work_refs _ _ rows => ∀ r ∈ rows, goodStr r.1 ∧ goodStr r.2
  | Pass.characters _ _ rows => ∀ r ∈ rows, goodStr r.1
  | Pass.citations _ rows => ∀ r ∈ rows, goodStr r.1 ∧ goodStr r.2

/-- The canonical relation URI of a sorted id pair. -/
def relUri (a b : String) : Node :=
  sappho ++ "relation/" ++ (a ++ "_" ++ b)

/-- The relation-node canonicality invariant: every subject carrying
the INT31 type in the graph is the canonical URI of a sorted pair of
well-formed ids. -/
def relCanon (g : Graph) : Prop :=
  ∀ t ∈ g, t.2.1 = RDF_type → t.2.2 = intro "INT31_IntertextualRelation" →
    ∃ a b, goodStr a ∧ goodStr b ∧ pyLt b a = false ∧ t.1 = relUri a b

/-! ## Concrete scenario instances -/

/-- A processor pass whose query exhausts its retries: the raised
HTTPError of the fetch layer propagates out of the pass. -/
def c8failPass : Graph → Except Unit Graph := fun g =>
  match (http_request_with_retry (fun _ => none) 0 (fun _ => ⟨429, "2"⟩)
    [200] 5).result with
  | Except.error _ => Except.error ()
  | Except.ok _ => Except.ok g

/-- A processor pass that appends one marker triple. -/
def c8markPass : Graph → Except Unit Graph := fun g =>
  Except.ok (addT g ("m", "p", "o"))


/-- The label lookup of the C3 scenario: Q100 is Love. -/
def c3lbl : String → String :=
  fun q => if q = "Q100" then "Love" else "Work " ++ q

/-- The C3 scenario rows: works Q1, Q2, Q3 all share topic Q100. -/
def c3rows : List (String × String) :=
  [("Q1", "Q100"), ("Q2", "Q100"), ("Q3", "Q100")]

/-- The graph the topic processor builds from the C3 scenario on an
empty graph. -/
def c3graph : Graph := process_topics c3lbl c3rows []

/-- The C4 counterexample run: process_int31 on one (Q1, Q2, P921) row
over the empty graph. -/
def c4graph : Graph :=
  process_int31 (fun q => "Work " ++ q) [("Q1", "Q2", "P921")] []

/-- The C6 scenario graph: one intertextual relation between the
expressions of Q1 (created 1850) and Q2 (created 1900), each side
carrying a citation text passage, laid out exactly as process_citations
and a year-bearing works graph would store it. -/
def c6graph : Graph :=
  [(sappho ++ "relation/Q1_Q2", RDF_type, intro "INT31_IntertextualRelation"),
   (sappho ++ "relation/Q1_Q2", intro "R24_hasRelatedEntity",
     sappho ++ "textpassage/Q1_Q2"),
   (sappho ++ "relation/Q1_Q2", intro "R24_hasRelatedEntity",
     sappho ++ "textpassage/Q2_Q1"),
   (sappho ++ "relation/Q1_Q2", intro "R24_hasRelatedEntity",
     sappho ++ "expression/Q1"),
   (sappho ++ "relation/Q1_Q2", intro "R24_hasRelatedEntity",
     sappho ++ "expression/Q2"),
   (sappho ++ "textpassage/Q1_Q2", intro "R30i_isTextPassageOf",
     sappho ++ "expression/Q1"),
   (sappho ++ "textpassage/Q2_Q1", intro "R30i_isTextPassageOf",
     sappho ++ "expression/Q2"),
   (sappho ++ "expression/Q1", LRMOO_R17i_was_created_by,
     sappho ++ "expression_creation/Q1"),
   (sappho ++ "expression_creation/Q1", ECRM_P4_has_timespan,
     sappho ++ "timespan/1850"),
   (sappho ++ "timespan/1850", RDFS_label, lit "1850"),
   (sappho ++ "expression/Q2", LRMOO_R17i_was_created_by,
     sappho ++ "expression_creation/Q2"),
   (sappho ++ "expression_creation/Q2", ECRM_P4_has_timespan,
     sappho ++ "timespan/1900"),
   (sappho ++ "timespan/1900", RDFS_label, lit "1900")]

/-- A C6 witness graph: a relation with two text-passage-bearing
participants but no creation years anywhere. -/
def c6skipGraph : Graph :=
  [("r", intro "R24_hasRelatedEntity", "t1"),
   ("r", intro "R24_hasRelatedEntity", "t2"),
   ("t1", intro "R30i_isTextPassageOf", "e1"),
   ("t2", intro "R30i_isTextPassageOf", "e2")]

/-- A relation with exactly two text passages that both lie on the
same expression e1, which even carries a parseable creation year: the
resolver must skip it on the distinct-participant guard alone. -/
def c6sameExprGraph : Graph :=
  [("r", RDF_type, intro "INT31_IntertextualRelation"),
   ("r", intro "R24_hasRelatedEntity", "t1"),
   ("r", intro "R24_hasRelatedEntity", "t2"),
   ("t1", intro "R30i_isTextPassageOf", "e1"),
   ("t2", intro "R30i_isTextPassageOf", "e1"),
   ("e1", LRMOO_R17i_was_created_by, "ev1"),
   ("ev1", ECRM_P4_has_timespan, "ts1"),
   ("ts1", RDFS_label, lit "1850")]

/-- The C7 counterexample graph: the expression of Q7 has a creation
event whose time-span carries the unparseable label unknown. -/
def c7graph : Graph :=
  [(sappho ++ "expression/Q7", LRMOO_R17i_was_created_by,
     sappho ++ "expression_creation/Q7"),
   (sappho ++ "expression_creation/Q7", ECRM_P4_has_timespan,
     sappho ++ "timespan/Q7"),
   (sappho ++ "timespan/Q7", RDFS_label, lit "unknown")]

/-- The C10 scenario, first call: interpretation over the relation
relation/Q1_Q2 with both participants as provenance, on the empty
graph. -/
def c10step1 : Graph × Node × Node :=
  add_interpretation [] (sappho ++ "relation/Q1_Q2")
    "Interpretation of intertextual relation between W1 and W2"
    [sappho ++ "expression/Q1", sappho ++ "expression/Q2"]

/-- The C10 scenario, second call: interpretation over the work-ref
actualization actualization/work_ref/Q1_Q2, whose URI ends in the same
last segment as the relation, with a different provenance source. -/
def c10step2 : Graph × Node × Node :=
  add_interpretation c10step1.1 (sappho ++ "actualization/work_ref/Q1_Q2")
    "Interpretation of W1 in W2" [WD_ENTITY ++ "Q9"]

/-! ## Basic store lemmas -/

lemma memT_iff {g : Graph} {t : Triple} : memT g t = true ↔ t ∈ g := by
  simp only [memT, List.any_eq_true, Bool.and_eq_true, beq_iff_eq]
  constructor
  · rintro ⟨x, hx, ⟨h1, h2⟩, h3⟩
    obtain ⟨x1, x2, x3⟩ := x
    obtain ⟨t1, t2, t3⟩ := t
    simp only at h1 h2 h3
    subst h1; subst h2; subst h3
    exact hx
  · intro ht
    exact ⟨t, ht, ⟨rfl, rfl⟩, rfl⟩

lemma subjMem_iff {g : Graph} {s : Node} :
    subjMem g s = true ↔ ∃ t ∈ g, t.1 = s := by
  simp only [subjMem, List.any_eq_true, beq_iff_eq]

lemma mem_addT {g : Graph} {t t' : Triple} :
    t' ∈ addT g t ↔ t' ∈ g ∨ t' = t := by
  unfold addT
  split
  · rename_i h
    rw [memT_iff] at h
    constructor
    · exact Or.inl
    · rintro (h' | rfl)
      · exact h'
      · exact h
  · simp [List.mem_append]

lemma mem_addT_of_mem {g : Graph} {t t' : Triple} (h : t' ∈ g) :
    t' ∈ addT g t := mem_addT.mpr (Or.inl h)

lemma self_mem_addT {g : Graph} {t : Triple} : t ∈ addT g t :=
  mem_addT.mpr (Or.inr rfl)

lemma subjMem_of_mem {g : Graph} {t : Triple} (h : t ∈ g) :
    subjMem g t.1 = true := subjMem_iff.mpr ⟨t, h, rfl⟩

lemma foldl_pres {α β : Type} {P : α → Prop} {f : α → β → α}
    (h : ∀ a b, P a → P (f a b)) :
    ∀ (l : List β) (a : α), P a → P (l.foldl f a) := by
  intro l
  induction l with
  | nil => intro a ha; exact ha
  | cons x xs ih => intro a ha; exact ih _ (h a x ha)

lemma mem_add_identifier {g : Graph} {t : Triple} {e : Node} {q : String}
    (h : t ∈ g) : t ∈ add_identifier g e q := by
  unfold add_identifier
  exact mem_addT_of_mem (mem_addT_of_mem (mem_addT_of_mem (mem_addT_of_mem
    (mem_addT_of_mem (mem_addT_of_mem (mem_addT_of_mem h))))))

/-! ## Claim C2: idempotence of the ensure operations -/

/-- N successive calls of ensure_expression on the same id and label,
returning the final graph. -/
def ensureExpressionIter : Nat → Graph → String → Option String → Graph
  | 0, g, _, _ => g
  | n + 1, g, q, l => ensureExpressionIter n (ensure_expression g q l).1 q l

/-- N successive calls of ensure_feature on the same arguments,
returning the final graph. -/
def ensureFeatureIter : Nat → Graph → String → Node → String → String → Graph
  | 0, g, _, _, _, _ => g
  | n + 1, g, q, c, l, p => ensureFeatureIter n (ensure_feature g q c l p).1 q c l p

lemma ensure_expression_type_mem (g : Graph) (q : String) (l : Option String) :
    (sappho ++ "expression/" ++ q, RDF_type, lrmoo "F2_Expression") ∈
      (ensure_expression g q l).1 := by
  simp only [ensure_expression]
  split
  · rename_i h
    exact memT_iff.mp h
  · exact mem_addT_of_mem (mem_addT_of_mem self_mem_addT)

lemma ensure_expression_idem (g : Graph) (q : String) (l l' : Option String) :
    ensure_expression (ensure_expression g q l).1 q l' =
      ((ensure_expression g q l).1, sappho ++ "expression/" ++ q) := by
  have h := ensure_expression_type_mem g q l
  set g1 := (ensure_expression g q l).1 with hg1
  simp only [ensure_expression]
  rw [if_pos (memT_iff.mpr h)]

lemma ensure_feature_type_mem (g : Graph) (q : String) (c : Node)
    (l p : String) :
    ∃ t ∈ (ensure_feature g q c l p).1, t.1 = sappho ++ p ++ "/" ++ q := by
  simp only [ensure_feature]
  split
  · rename_i h
    exact subjMem_iff.mp h
  · dsimp only
    exact ⟨(sappho ++ p ++ "/" ++ q, RDF_type, c),
      mem_add_identifier (mem_addT_of_mem (mem_addT_of_mem self_mem_addT)), rfl⟩

lemma ensure_feature_idem (g : Graph) (q : String) (c : Node) (l l' p : String) :
    ensure_feature (ensure_feature g q c l p).1 q c l' p =
      ((ensure_feature g q c l p).1, sappho ++ p ++ "/" ++ q) := by
  have h := ensure_feature_type_mem g q c l p
  set g1 := (ensure_feature g q c l p).1 with hg1
  simp only [ensure_feature]
  rw [if_pos (subjMem_iff.mpr h)]

lemma ensureExpressionIter_succ (n : Nat) (g : Graph) (q : String)
    (l : Option String) :
    ensureExpressionIter (n + 1) g q l = (ensure_expression g q l).1 := by
  induction n generalizing g with
  | zero => rfl
  | succ n ih =>
    show ensureExpressionIter (n + 1) (ensure_expression g q l).1 q l = _
    rw [ih, ensure_expression_idem]

lemma ensureFeatureIter_succ (n : Nat) (g : Graph) (q : String) (c : Node)
    (l p : String) :
    ensureFeatureIter (n + 1) g q c l p = (ensure_feature g q c l p).1 := by
  induction n generalizing g with
  | zero => rfl
  | succ n ih =>
    show ensureFeatureIter (n + 1) (ensure_feature g q c l p).1 q c l p = _
    rw [ih, ensure_feature_idem]

/-- Claim C2: for every graph, id, label and N at least 1, N calls of
ensure_expression produce exactly the triple set one call produces, N
calls of ensure_feature produce exactly the triple set one call
produces, and both return the same canonical URI on every call (for
ensure_expression the URI expression/id, for ensure_feature the URI
path/id, independent of the graph). -/
theorem c2_ensure_idempotent (g : Graph) (q : String) (l : Option String)
    (c : Node) (lbl p : String) (n : Nat) :
    ensureExpressionIter (n + 1) g q l = ensureExpressionIter 1 g q l ∧
    (ensure_expression g q l).2 = sappho ++ "expression/" ++ q ∧
    ensureFeatureIter (n + 1) g q c lbl p = ensureFeatureIter 1 g q c lbl p ∧
    (ensure_feature g q c lbl p).2 = sappho ++ p ++ "/" ++ q := by
  refine ⟨?_, ?_, ?_, ?_⟩
  · rw [ensureExpressionIter_succ, ensureExpressionIter_succ]
  · simp only [ensure_expression]
    split <;> rfl
  · rw [ensureFeatureIter_succ, ensureFeatureIter_succ]
  · simp only [ensure_feature]
    split <;> rfl

/-! ## Claim C9: Retry-After parsing -/

/-- Claim C9: every parsed Retry-After wait is non-negative; an
HTTP-date value lying in the past (at or before now) yields a wait
clamped to exactly 0; a value that is neither a digit string nor a
parseable HTTP date yields no wait. -/
theorem c9_retry_after_clamp :
    (∀ (pd : String → Option ℚ) (now : ℚ) (s : String) (w : ℚ),
      _parse_retry_after pd now s = some w → 0 ≤ w) ∧
    (∀ (pd : String → Option ℚ) (now : ℚ) (s : String) (dt : ℚ),
      s ≠ "" → pyIsDigit (pyStrip s) = false → pd (pyStrip s) = some dt →
      dt ≤ now → _parse_retry_after pd now s = some 0) ∧
    (∀ (pd : String → Option ℚ) (now : ℚ) (s : String),
      pyIsDigit (pyStrip s) = false → pd (pyStrip s) = none →
      _parse_retry_after pd now s = none) := by
  refine ⟨?_, ?_, ?_⟩
  · intro pd now s w h
    unfold _parse_retry_after at h
    split at h
    · exact absurd h (by simp)
    · dsimp only at h
      split at h
      · rw [Option.some_inj] at h
        exact h ▸ Nat.cast_nonneg _
      · split at h
        · rw [Option.some_inj] at h
          exact h ▸ le_max_left 0 _
        · exact absurd h (by simp)
  · intro pd now s dt hs hdig hpd hle
    unfold _parse_retry_after
    rw [if_neg hs, if_neg (by simp [hdig]), hpd]
    have : dt - now ≤ 0 := by linarith
    simp [max_eq_left this]
  · intro pd now s hdig hpd
    unfold _parse_retry_after
    split
    · rfl
    · rw [if_neg (by simp [hdig]), hpd]

/-- Witness for C9 at concrete inputs: the parser that recognizes only
the text Mon as a date with timestamp 100, taken at now 500 (so the
date lies in the past), yields the clamped wait 0 on Mon and no wait
on the unparseable xyz, and the digit wait 99 is non-negative. -/
theorem c9_retry_after_clamp_witness :
    (0 : ℚ) ≤ 99 ∧
    _parse_retry_after (fun t => if t = "Mon" then some 100 else none) 500
      "Mon" = some 0 ∧
    _parse_retry_after (fun t => if t = "Mon" then some 100 else none) 500
      "xyz" = none := by
  refine ⟨?_, ?_, ?_⟩
  · exact c9_retry_after_clamp.1 (fun t => if t = "Mon" then some 100 else none)
      500 "99" 99 (by decide)
  · exact c9_retry_after_clamp.2.1 (fun t => if t = "Mon" then some 100 else none)
      500 "Mon" 100 (by decide) (by decide) (by decide) (by norm_num)
  · exact c9_retry_after_clamp.2.2 (fun t => if t = "Mon" then some 100 else none)
      500 "xyz" (by decide) (by decide)

/-! ## Claim C5: retry boundedness under constant 429 -/

lemma parse_retry_after_two (pd : String → Option ℚ) (now : ℚ) :
    _parse_retry_after pd now "2" = some 2 := rfl

lemma httpGo_const429 (pd : String → Option ℚ) (now : ℚ)
    (respAt : Nat → Response) (h429 : ∀ n, respAt n = ⟨429, "2"⟩)
    (ok_statuses : List Nat) (hok : 429 ∉ ok_statuses) (m : Nat) :
    ∀ (fuel tries : Nat), tries < m → m ≤ tries + fuel →
      httpGo pd now respAt ok_statuses m fuel tries =
        ⟨Except.error 429, m - tries, List.replicate (m - tries - 1) 2⟩ := by
  intro fuel
  induction fuel with
  | zero => intro tries h1 h2; omega
  | succ fuel ih =>
    intro tries h1 h2
    simp only [httpGo]
    rw [h429 (tries + 1)]
    dsimp only
    rw [if_neg hok, if_pos rfl, parse_retry_after_two]
    dsimp only [Option.getD]
    by_cases hend : m ≤ tries + 1
    · rw [if_pos hend]
      have h3 : m - tries = 1 := by omega
      rw [h3]
      rfl
    · rw [if_neg hend]
      rw [ih (tries + 1) (by omega) (by omega)]
      dsimp only
      have h3 : m - (tries + 1) + 1 = m - tries := by omega
      have h4 : m - (tries + 1) - 1 + 1 = m - tries - 1 := by omega
      rw [h3]
      congr 1
      rw [← h4, List.replicate_succ]

/-- Claim C5: when every attempt returns status 429 with header
Retry-After 2, http_request_with_retry performs exactly max_retries
total attempts and then raises the 429 failure to the caller, and the
sleeps between consecutive attempts are the max_retries minus 1 waits
of 2 seconds, each at least 2. -/
theorem c5_retry_exhaustion (pd : String → Option ℚ) (now : ℚ)
    (respAt : Nat → Response) (h429 : ∀ n, respAt n = ⟨429, "2"⟩)
    (ok_statuses : List Nat) (hok : 429 ∉ ok_statuses) (m : Nat)
    (hm : 1 ≤ m) :
    http_request_with_retry pd now respAt ok_statuses m =
      ⟨Except.error 429, m, List.replicate (m - 1) 2⟩ ∧
    ∀ w ∈ (http_request_with_retry pd now respAt ok_statuses m).sleeps,
      (2 : ℚ) ≤ w := by
  have h := httpGo_const429 pd now respAt h429 ok_statuses hok m (m + 1) 0
    (by omega) (by omega)
  unfold http_request_with_retry
  rw [h]
  refine ⟨by simp, ?_⟩
  intro w hw
  dsimp only at hw
  rw [List.eq_of_mem_replicate hw]

/-- Witness for C5 at the source defaults: max_retries 5 and
ok_statuses containing only 200; the outcome is the raised 429 after
exactly 5 attempts with four sleeps of 2 seconds. -/
theorem c5_retry_exhaustion_witness :
    http_request_with_retry (fun _ => none) 0 (fun _ => ⟨429, "2"⟩) [200] 5 =
      ⟨Except.error 429, 5, List.replicate 4 2⟩ ∧
    ∀ w ∈ (http_request_with_retry (fun _ => none) 0 (fun _ => ⟨429, "2"⟩)
      [200] 5).sleeps, (2 : ℚ) ≤ w :=
  c5_retry_exhaustion (fun _ => none) 0 (fun _ => ⟨429, "2"⟩) (fun _ => rfl)
    [200] (by decide) 5 (by decide)

/-! ## Claim C7: graceful handling of missing optional data -/

/-- Counterexample for C7: when a creation event with a time-span is
present but the time-span label is the unparseable text unknown,
get_creation_year raises ValueError instead of returning no year and
skipping. -/
theorem c7_counterexample :
    get_creation_year c7graph (sappho ++ "expression/Q7") = Except.error () ∧
    get_creation_year c7graph (sappho ++ "expression/Q7") ≠ Except.ok none := by
  decide

/-- Claim C7 as amended: get_label falls back to the qid itself (never
raising) when neither the preferred nor the de fallback language has a
label, and the creation-year lookup returns no year (causing a skip,
not an exception) when neither the expression-creation path nor the
manifestation-creation path reaches any time-span node; but when a
time-span node is reached, its label is fed to int(), so an absent or
unparseable label raises ValueError. -/
theorem c7_missing_data_fallback
    (labels : String → String → Option String) (qid lang : String)
    (h1 : labels qid lang = none) (h2 : labels qid "de" = none)
    (g : Graph) (expr : Node)
    (hec : (objectsOf g expr LRMOO_R17i_was_created_by).flatMap
      (fun ec => objectsOf g ec ECRM_P4_has_timespan) = [])
    (hmc : ((objectsOf g expr LRMOO_R4i_is_embodied_in).flatMap
      (fun m => subjectsOf g LRMOO_R24_created m)).flatMap
      (fun mc => objectsOf g mc ECRM_P4_has_timespan) = []) :
    get_label labels qid lang = qid ∧
    get_creation_year g expr = Except.ok none := by
  constructor
  · unfold get_label
    rw [h1, h2]
  · unfold get_creation_year
    dsimp only
    rw [hec, hmc]

/-- Witness for C7 at concrete inputs: no label in any language for
Q9 and the empty graph for the year lookup. -/
theorem c7_missing_data_fallback_witness :
    get_label (fun _ _ => none) "Q9" "en" = "Q9" ∧
    get_creation_year [] (sappho ++ "expression/Q9") = Except.ok none :=
  c7_missing_data_fallback (fun _ _ => none) "Q9" "en" rfl rfl
    [] (sappho ++ "expression/Q9") rfl rfl

/-! ## Claim C6: the directionality resolver -/

/-- Claim C6: the resolver skips (without error) every relation whose
text-passage-bearing participant count is not exactly two; it skips
(without error) every relation whose two text passages lie on the same
participant expression, so only relations with exactly two distinct
participant expressions qualify; it skips when a creation year is
missing for either side; and on the scenario graph (Q1 created 1850,
Q2 created 1900, linked via citation passages) it yields younger Q2
and older Q1 with the corresponding passages, ordering by strict
comparison of the years. -/
theorem c6_direction_resolution :
    (∀ (g : Graph) (rel : Node), (tpExprOf g rel).length ≠ 2 →
      dirStep g rel = Except.ok none) ∧
    (∀ (g : Graph) (rel tp1 tp2 e : Node),
      tpExprOf g rel = [(tp1, e), (tp2, e)] →
      dirStep g rel = Except.ok none) ∧
    (∀ (g : Graph) (rel tp1 e1 tp2 e2 : Node) (o1 o2 : Option Int),
      tpExprOf g rel = [(tp1, e1), (tp2, e2)] →
      get_creation_year g e1 = Except.ok o1 →
      get_creation_year g e2 = Except.ok o2 →
      o1 = none ∨ o2 = none →
      dirStep g rel = Except.ok none) ∧
    gatherDirections c6graph = Except.ok
      [(sappho ++ "expression/Q2", sappho ++ "expression/Q1",
        sappho ++ "textpassage/Q2_Q1", sappho ++ "textpassage/Q1_Q2")] := by
  refine ⟨?_, ?_, ?_, by decide⟩
  · intro g rel h
    unfold dirStep
    dsimp only
    rw [if_pos h]
  · intro g rel tp1 tp2 e htp
    unfold dirStep
    dsimp only
    rw [htp]
    rw [if_neg (by simp)]
    rw [if_pos]
    simp [List.dedup_cons_of_mem]
  · intro g rel tp1 e1 tp2 e2 o1 o2 htp hy1 hy2 ho
    unfold dirStep
    dsimp only
    rw [htp]
    rw [if_neg (by simp)]
    by_cases he : e1 = e2
    · rw [if_pos]
      simp [he, List.dedup_cons_of_mem]
    · rw [if_neg]
      · dsimp only
        rw [hy1, hy2]
        rcases ho with rfl | rfl
        · cases o2 <;> rfl
        · cases o1 <;> rfl
      · simp [List.dedup_cons_of_not_mem, he]

/-- Witness for C6 at concrete inputs: the empty graph has no
text-passage participants for a relation r, so it is skipped; the
graph whose two text passages lie on the same expression e1 (which
even has a creation year 1850) is skipped on the distinctness guard;
and on the graph with two passage-bearing participants but no
creation years the relation is skipped without error. -/
theorem c6_direction_resolution_witness :
    dirStep ([] : Graph) "r" = Except.ok none ∧
    dirStep c6sameExprGraph "r" = Except.ok none ∧
    dirStep c6skipGraph "r" = Except.ok none := by
  refine ⟨?_, ?_, ?_⟩
  · exact c6_direction_resolution.1 [] "r" (by decide)
  · exact c6_direction_resolution.2.1 c6sameExprGraph "r" "t1" "t2" "e1"
      (by decide)
  · exact c6_direction_resolution.2.2.1 c6skipGraph "r" "t1" "e1" "t2" "e2"
      none none (by decide) (by decide) (by decide) (Or.inl rfl)

/-! ## Claim C8: failure scope of retry exhaustion -/

/-- Counterexample for C8: in a run whose first pass exhausts its
retries, the orchestrator loop stops at the raised error, so the
second processor never runs: the run result is the error, not the
graph the second processor would have produced (which it does produce
when it runs alone). -/
theorem c8_counterexample :
    runPasses [c8failPass, c8markPass] [] = Except.error () ∧
    runPasses [c8markPass] [] = Except.ok [("m", "p", "o")] ∧
    runPasses [c8failPass, c8markPass] [] ≠ Except.ok [("m", "p", "o")] := by
  decide

/-- Claim C8 as amended: retry exhaustion is surfaced to the processor
pass that issued the query and aborts it, and the uncaught error then
aborts the whole main loop: no matter what processors follow, the run
result is that error, while the writes of the passes completed before
the failure (the graph the failing pass received) remain valid. -/
theorem c8_retry_exhaustion_aborts_run
    (ps1 : List (Graph → Except Unit Graph)) (p : Graph → Except Unit Graph)
    (g0 g1 : Graph) (e : Unit)
    (h1 : runPasses ps1 g0 = Except.ok g1) (h2 : p g1 = Except.error e) :
    ∀ ps2, runPasses (ps1 ++ p :: ps2) g0 = Except.error e := by
  intro ps2
  induction ps1 generalizing g0 with
  | nil =>
    simp only [runPasses] at h1
    cases h1
    simp only [List.nil_append, runPasses, h2]
  | cons q qs ih =>
    simp only [runPasses] at h1 ⊢
    cases hq : q g0 with
    | error e2 => rw [hq] at h1
    | ok g2 =>
      rw [hq] at h1
      exact ih g2 h1

/-- Witness for C8 at concrete inputs: one completed marker pass, then
a pass that exhausts retries, then another marker pass that never
runs. -/
theorem c8_retry_exhaustion_aborts_run_witness :
    runPasses ([c8markPass] ++ c8failPass :: [c8markPass]) [] =
      Except.error () :=
  c8_retry_exhaustion_aborts_run [c8markPass] c8failPass []
    [("m", "p", "o")] () (by decide) (by decide) [c8markPass]

/-! ## Claim C10: interpretation identity from the last URI segment -/

/-- Claim C10: the interpretation-feature and
interpretation-actualization URIs that add_interpretation derives
depend only on the last path segment of the target URI, so any two
targets sharing that segment share them; on the concrete pair
relation/Q1_Q2 and actualization/work_ref/Q1_Q2 the two calls return
the same node pair, the single interpretation-actualization node
carries identifies edges to both distinct targets, only one
interpretation-actualization node exists, and the second call does not
re-emit the node (its provenance source Q9 is absent while the first
call provenance Q1 is present). -/
theorem c10_interpretation_by_last_segment :
    (∀ (g : Graph) (t1 t2 : Node) (l1 l2 : String) (d1 d2 : List Node),
      lastSegC '/' t1 = lastSegC '/' t2 →
      (add_interpretation g t1 l1 d1).2 = (add_interpretation g t2 l2 d2).2) ∧
    c10step1.2 = c10step2.2 ∧
    (sappho ++ "actualization/interpretation/Q1_Q2",
      intro "R21_identifies", sappho ++ "relation/Q1_Q2") ∈ c10step2.1 ∧
    (sappho ++ "actualization/interpretation/Q1_Q2",
      intro "R21_identifies", sappho ++ "actualization/work_ref/Q1_Q2") ∈
      c10step2.1 ∧
    (c10step2.1.filter (fun t => t.2.1 == RDF_type &&
      t.2.2 == intro "INT2_ActualizationOfFeature")).length = 1 ∧
    (sappho ++ "actualization/interpretation/Q1_Q2",
      prov "wasDerivedFrom", WD_ENTITY ++ "Q1") ∈ c10step2.1 ∧
    (sappho ++ "actualization/interpretation/Q1_Q2",
      prov "wasDerivedFrom", WD_ENTITY ++ "Q9") ∉ c10step2.1 := by
  refine ⟨?_, by decide, by decide, by decide, by decide, by decide, by decide⟩
  intro g t1 t2 l1 l2 d1 d2 h
  unfold add_interpretation
  dsimp only
  rw [h]

/-- Witness for C10: the general last-segment fact applied at the two
concrete targets of the scenario. -/
theorem c10_interpretation_by_last_segment_witness :
    (add_interpretation [] (sappho ++ "relation/Q1_Q2") "a" []).2 =
      (add_interpretation [] (sappho ++ "actualization/work_ref/Q1_Q2")
        "b" []).2 :=
  c10_interpretation_by_last_segment.1 [] (sappho ++ "relation/Q1_Q2")
    (sappho ++ "actualization/work_ref/Q1_Q2") "a" "b" [] [] (by decide)

/-! ## String toolkit lemmas -/

lemma splitCL_ne_nil (sep : Char) (cs : List Char) (acc : List (List Char))
    (h : acc ≠ []) : cs.foldr (splitStep sep) acc ≠ [] := by
  induction cs with
  | nil => exact h
  | cons c cs ih =>
    simp only [List.foldr_cons]
    obtain ⟨h2, t2, hht⟩ := List.exists_cons_of_ne_nil ih
    rw [hht]
    unfold splitStep
    dsimp only
    split <;> simp

lemma foldr_splitStep_tail (sep : Char) (a : List Char) (h : List Char)
    (t : List (List Char)) :
    a.foldr (splitStep sep) (h :: t) = a.foldr (splitStep sep) [h] ++ t := by
  induction a with
  | nil => rfl
  | cons c cs ih =>
    simp only [List.foldr_cons, ih]
    obtain ⟨h2, t2, hht⟩ := List.exists_cons_of_ne_nil
      (splitCL_ne_nil sep cs [h] (by simp))
    rw [hht, List.cons_append]
    unfold splitStep
    dsimp only
    split <;> simp

lemma splitCL_append_sep (sep : Char) (xs ys : List Char) :
    splitCL sep (xs ++ sep :: ys) = splitCL sep xs ++ splitCL sep ys := by
  unfold splitCL
  rw [List.foldr_append]
  simp only [List.foldr_cons]
  have h1 : splitStep sep sep (ys.foldr (splitStep sep) [[]]) =
      [] :: ys.foldr (splitStep sep) [[]] := by
    obtain ⟨h2, t2, hht⟩ := List.exists_cons_of_ne_nil
      (splitCL_ne_nil sep ys [[]] (by simp))
    rw [hht]
    unfold splitStep
    dsimp only
    rw [if_pos rfl]
  rw [h1]
  exact foldr_splitStep_tail sep xs [] _

lemma splitCL_no_sep (sep : Char) (cs : List Char) (h : sep ∉ cs) :
    splitCL sep cs = [cs] := by
  induction cs with
  | nil => rfl
  | cons c cs ih =>
    unfold splitCL at ih ⊢
    simp only [List.foldr_cons]
    rw [ih (fun hm => h (List.mem_cons_of_mem c hm))]
    unfold splitStep
    dsimp only
    rw [if_neg (fun hceq => h (by rw [← hceq]; exact List.mem_cons_self c cs))]

lemma lastSegC_of_eq (sep : Char) (s q : String) (ys : List Char)
    (hdata : s.data = ys ++ sep :: q.data) (hq : sep ∉ q.data) :
    lastSegC sep s = q := by
  unfold lastSegC splitStr
  rw [hdata, splitCL_append_sep, splitCL_no_sep sep q.data hq]
  simp only [List.map_append, List.map_cons, List.map_nil]
  rw [List.getLastD_concat]

lemma strLtB_self (a : List Char) : strLtB a a = false := by
  induction a with
  | nil => rfl
  | cons c cs ih =>
    unfold strLtB
    simp [ih]

lemma strLtB_asymm (a b : List Char) (h : strLtB a b = true) :
    strLtB b a = false := by
  induction a generalizing b with
  | nil =>
    cases b with
    | nil => exact absurd h (by simp [strLtB])
    | cons c cs => rfl
  | cons c cs ih =>
    cases b with
    | nil => exact absurd h (by simp [strLtB])
    | cons d ds =>
      unfold strLtB at h ⊢
      rcases Nat.lt_trichotomy c.toNat d.toNat with h1 | h1 | h1
      · rw [if_neg (by omega), if_pos h1]
      · have hcd : ¬ c.toNat < d.toNat := by omega
        have hdc : ¬ d.toNat < c.toNat := by omega
        rw [if_neg hcd, if_neg hdc] at h
        rw [if_neg hdc, if_neg hcd]
        exact ih ds h
      · rw [if_neg (by omega), if_pos h1] at h
        exact absurd h (by simp)

lemma strLtB_eq_of_both_false (a b : List Char) (hab : strLtB a b = false)
    (hba : strLtB b a = false) : a = b := by
  induction a generalizing b with
  | nil =>
    cases b with
    | nil => rfl
    | cons d ds => exact absurd hab (by simp [strLtB])
  | cons c cs ih =>
    cases b with
    | nil => exact absurd hba (by simp [strLtB])
    | cons d ds =>
      unfold strLtB at hab hba
      rcases Nat.lt_trichotomy c.toNat d.toNat with h1 | h1 | h1
      · rw [if_pos h1] at hab
        exact absurd hab (by simp)
      · have hc : c = d := Char.ext (UInt32.ext h1)
        have hcd : ¬ c.toNat < d.toNat := by omega
        have hdc : ¬ d.toNat < c.toNat := by omega
        rw [if_neg hcd, if_neg hdc] at hab
        rw [if_neg hdc, if_neg hcd] at hba
        rw [hc, ih ds hab hba]
      · rw [if_pos h1] at hba
        exact absurd hba (by simp)

lemma strAppend_cancel_left (p a b : String) (h : p ++ a = p ++ b) : a = b := by
  apply String.ext
  have hd := congrArg String.data h
  rw [String.data_append, String.data_append] at hd
  exact List.append_cancel_left hd

lemma sep_cons_inj (sep : Char) (a c b d : List Char) (ha : sep ∉ a)
    (hc : sep ∉ c) (h : a ++ sep :: b = c ++ sep :: d) : a = c ∧ b = d := by
  induction a generalizing c with
  | nil =>
    cases c with
    | nil => simpa using h
    | cons x xs =>
      simp only [List.nil_append, List.cons_append, List.cons.injEq] at h
      obtain ⟨h1, h2⟩ := h
      subst h1
      exact absurd (List.mem_cons_self sep xs) hc
  | cons y ys ih =>
    cases c with
    | nil =>
      simp only [List.cons_append, List.nil_append, List.cons.injEq] at h
      obtain ⟨h1, h2⟩ := h
      subst h1
      exact absurd (List.mem_cons_self y ys) ha
    | cons x xs =>
      simp only [List.cons_append, List.cons.injEq] at h
      obtain ⟨rfl, h2⟩ := h
      have := ih xs (fun hm => ha (List.mem_cons_of_mem _ hm))
        (fun hm => hc (List.mem_cons_of_mem _ hm)) h2
      exact ⟨by rw [this.1], this.2⟩

lemma underscore_join_inj (a b c d : String) (ha : '_' ∉ a.data)
    (hc : '_' ∉ c.data) (h : a ++ "_" ++ b = c ++ "_" ++ d) :
    a = c ∧ b = d := by
  have hd := congrArg String.data h
  simp only [String.data_append] at hd
  have hd2 : a.data ++ '_' :: b.data = c.data ++ '_' :: d.data := by
    simpa using hd
  have := sep_cons_inj '_' a.data c.data b.data d.data ha hc hd2
  exact ⟨String.ext this.1, String.ext this.2⟩

lemma strAppend_ne_of_length (a b x y : String)
    (h : a.data.length + x.data.length ≠ b.data.length + y.data.length) :
    a ++ x ≠ b ++ y := by
  intro he
  apply h
  have := congrArg (fun s => s.data.length) he
  simpa [String.data_append] using this

lemma mem_splitCL_no_sep (sep : Char) (cs : List Char) :
    ∀ seg ∈ splitCL sep cs, sep ∉ seg := by
  induction cs with
  | nil =>
    intro seg hseg
    simp only [splitCL, List.foldr_nil, List.mem_singleton] at hseg
    simp [hseg]
  | cons c cs ih =>
    intro seg hseg
    obtain ⟨h2, t2, hht⟩ := List.exists_cons_of_ne_nil
      (splitCL_ne_nil sep cs [[]] (by simp))
    have hsplit : splitCL sep cs = h2 :: t2 := hht
    have hexp : splitCL sep (c :: cs) = splitStep sep c (h2 :: t2) := by
      unfold splitCL
      simp only [List.foldr_cons]
      rw [hht]
    rw [hexp] at hseg
    unfold splitStep at hseg
    dsimp only at hseg
    split at hseg
    · rcases List.mem_cons.mp hseg with h | h
      · simp [h]
      · exact ih seg (by rw [hsplit]; exact h)
    · rename_i hcne
      rcases List.mem_cons.mp hseg with h | h
      · subst h
        intro hm
        rcases List.mem_cons.mp hm with hm | hm
        · exact hcne hm.symm
        · exact ih h2 (by rw [hsplit]; exact List.mem_cons_self h2 t2) hm
      · exact ih seg (by rw [hsplit]; exact List.mem_cons_of_mem h2 h)

lemma getLastD_map_no_sep (sep : Char) (L : List (List Char)) :
    ∀ (d : String), (∀ seg ∈ L, sep ∉ seg) → sep ∉ d.data →
    sep ∉ ((L.map (fun l => (⟨l⟩ : String))).getLastD d).data := by
  induction L with
  | nil => intro d _ hd; exact hd
  | cons x t ih =>
    intro d hL hd
    simp only [List.map_cons, List.getLastD_cons]
    exact ih ⟨x⟩ (fun seg hseg => hL seg (List.mem_cons_of_mem x hseg))
      (hL x (List.mem_cons_self x t))

lemma lastSegC_no_sep (sep : Char) (s : String) :
    sep ∉ (lastSegC sep s).data := by
  unfold lastSegC splitStr
  exact getLastD_map_no_sep sep _ "" (mem_splitCL_no_sep sep s.data) (by simp)

lemma mem_foldl_addT {α : Type} (F : α → Triple) (l : List α) (g0 : Graph) :
    ∀ x ∈ l, F x ∈ l.foldl (fun g x => addT g (F x)) g0 := by
  induction l generalizing g0 with
  | nil => intro x hx; exact absurd hx (by simp)
  | cons y ys ih =>
    intro x hx
    rcases List.mem_cons.mp hx with rfl | hx2
    · simp only [List.foldl_cons]
      exact foldl_pres (fun g x => mem_addT_of_mem) ys _ self_mem_addT
    · exact ih _ x hx2

lemma mem_foldl_addT_of_mem {α : Type} (F : α → Triple) (l : List α)
    (g0 : Graph) {t : Triple} (h : t ∈ g0) :
    t ∈ l.foldl (fun g x => addT g (F x)) g0 :=
  foldl_pres (fun g x => mem_addT_of_mem) l g0 h

lemma feat_ne_act_interpretation (tid : String) :
    (sappho ++ "feature/interpretation/" ++ tid : String) ≠
      sappho ++ "actualization/interpretation/" ++ tid := by
  apply strAppend_ne_of_length
  have h1 : (sappho ++ "feature/interpretation/").data.length = 50 := by decide
  have h2 : (sappho ++ "actualization/interpretation/").data.length = 56 := by
    decide
  omega

lemma add_interpretation_creates (g : Graph) (target : Node) (lbl : String)
    (ds : List Node)
    (hact : ∀ t ∈ g,
      t.1 ≠ sappho ++ "actualization/interpretation/" ++ lastSegC '/' target) :
    (sappho ++ "actualization/interpretation/" ++ lastSegC '/' target,
      intro "R21_identifies", target) ∈ (add_interpretation g target lbl ds).1 ∧
    (target, intro "R21i_isIdentifiedBy",
      sappho ++ "actualization/interpretation/" ++ lastSegC '/' target) ∈
      (add_interpretation g target lbl ds).1 ∧
    ∀ src ∈ ds,
      (sappho ++ "actualization/interpretation/" ++ lastSegC '/' target,
        prov "wasDerivedFrom", WD_ENTITY ++ lastSegC '/' src) ∈
      (add_interpretation g target lbl ds).1 := by
  unfold add_interpretation
  dsimp only
  refine ⟨mem_addT_of_mem self_mem_addT, self_mem_addT, ?_⟩
  intro src hsrc
  have hGF : ∀ t ∈ (if subjMem g
      (sappho ++ "feature/interpretation/" ++ lastSegC '/' target) then g
    else addT (addT g (sappho ++ "feature/interpretation/" ++
        lastSegC '/' target, RDF_type, intro "INT_Interpretation"))
      (sappho ++ "feature/interpretation/" ++ lastSegC '/' target,
        RDFS_label, lit lbl)),
      t.1 ≠ sappho ++ "actualization/interpretation/" ++ lastSegC '/' target := by
    intro t ht
    split at ht
    · exact hact t ht
    · rcases mem_addT.mp ht with ht2 | rfl
      · rcases mem_addT.mp ht2 with ht3 | rfl
        · exact hact t ht3
        · exact feat_ne_act_interpretation _
      · exact feat_ne_act_interpretation _
  have hsubjF : subjMem (if subjMem g
      (sappho ++ "feature/interpretation/" ++ lastSegC '/' target) then g
    else addT (addT g (sappho ++ "feature/interpretation/" ++
        lastSegC '/' target, RDF_type, intro "INT_Interpretation"))
      (sappho ++ "feature/interpretation/" ++ lastSegC '/' target,
        RDFS_label, lit lbl))
      (sappho ++ "actualization/interpretation/" ++ lastSegC '/' target) =
      false := by
    rw [Bool.eq_false_iff]
    intro htrue
    obtain ⟨t, ht, ht1⟩ := subjMem_iff.mp htrue
    exact hGF t ht ht1
  rw [hsubjF]
  simp only [Bool.false_eq_true, if_false]
  apply mem_addT_of_mem
  apply mem_addT_of_mem
  apply mem_addT_of_mem
  apply mem_addT_of_mem
  exact mem_foldl_addT
    (fun src => (sappho ++ "actualization/interpretation/" ++
      lastSegC '/' target, prov "wasDerivedFrom",
      WD_ENTITY ++ lastSegC '/' src)) ds _ src hsrc

lemma mem_add_interpretation {g : Graph} {t : Triple} (target : Node)
    (lbl : String) (ds : List Node) (h : t ∈ g) :
    t ∈ (add_interpretation g target lbl ds).1 := by
  unfold add_interpretation
  dsimp only
  apply mem_addT_of_mem
  apply mem_addT_of_mem
  split
  · split
    · exact h
    · apply mem_addT_of_mem
      apply mem_addT_of_mem
      apply mem_foldl_addT_of_mem
      exact mem_addT_of_mem (mem_addT_of_mem h)
  · split
    · exact mem_addT_of_mem (mem_addT_of_mem h)
    · apply mem_addT_of_mem
      apply mem_addT_of_mem
      apply mem_foldl_addT_of_mem
      exact mem_addT_of_mem (mem_addT_of_mem
        (mem_addT_of_mem (mem_addT_of_mem h)))

lemma join_no_slash (a b : String) (ha : '/' ∉ a.data) (hb : '/' ∉ b.data) :
    '/' ∉ (a ++ "_" ++ b).data := by
  simp only [String.data_append, List.mem_append]
  intro hm
  rcases hm with (hm | hm) | hm
  · exact ha hm
  · simp only [List.mem_singleton] at hm
    exact absurd hm (by decide)
  · exact hb hm

lemma lastSegC_relation_join (x : String) (hx : '/' ∉ x.data) :
    lastSegC '/' (sappho ++ "relation/" ++ x) = x :=
  lastSegC_of_eq '/' _ x (sappho ++ "relation").data rfl hx

lemma relation_ne_act_interpretation (x : String) (hx : '/' ∉ x.data) :
    (sappho ++ "relation/" ++ x : String) ≠
      sappho ++ "actualization/interpretation/" ++
        lastSegC '/' (sappho ++ "relation/" ++ x) := by
  rw [lastSegC_relation_join x hx]
  apply strAppend_ne_of_length
  have h1 : (sappho ++ "relation/").data.length = 36 := by decide
  have h2 : (sappho ++ "actualization/interpretation/").data.length = 56 := by
    decide
  omega

/-! ## Claim C4: relations carry interpretations -/

/-- Counterexample for C4: process_int31 materializes a relation node
with type and label only; after its pass runs on one (Q1, Q2, P921)
row, the INT31 relation node is in the graph but no identifies edge
points at it (no interpretation-actualization node identifies it), so
not every freshly created relation node carries an interpretation. -/
theorem c4_counterexample :
    (sappho ++ "relation/Q1_Q2", RDF_type,
      intro "INT31_IntertextualRelation") ∈ c4graph ∧
    (c4graph.filter (fun t => t.2.1 == intro "R21_identifies" &&
      t.2.2 == sappho ++ "relation/Q1_Q2")).length = 0 ∧
    (c4graph.filter (fun t => t.2.1 == intro "R21_identifies")).length = 0 := by
  decide

/-- Claim C4 as amended: when get_or_create_int31_relation creates a
relation node that does not yet exist, it creates it together with a
label and an attached interpretation whose provenance links back to
both participating expressions, and the relation is the target of an
identifies edge from the interpretation-actualization node; the
process_int31 pass, however, creates its relation nodes bare (see the
counterexample), so the invariant holds for the shared materializer
but not after every processor. -/
theorem c4_relation_interpretation
    (lo : String → String) (g : Graph) (expr1 expr2 : Node)
    (hne : expr1 ≠ expr2)
    (rel : Node)
    (hrel : rel = if pyLt (lastSegC '/' expr1) (lastSegC '/' expr2)
      then sappho ++ "relation/" ++
        (lastSegC '/' expr1 ++ "_" ++ lastSegC '/' expr2)
      else sappho ++ "relation/" ++
        (lastSegC '/' expr2 ++ "_" ++ lastSegC '/' expr1))
    (habs : memT g (rel, RDF_type, intro "INT31_IntertextualRelation") = false)
    (hact : ∀ t ∈ g,
      t.1 ≠ sappho ++ "actualization/interpretation/" ++ lastSegC '/' rel) :
    (get_or_create_int31_relation lo g expr1 expr2).2 = some rel ∧
    (rel, RDF_type, intro "INT31_IntertextualRelation") ∈
      (get_or_create_int31_relation lo g expr1 expr2).1 ∧
    (rel, RDFS_label, lit ("Intertextual relation between " ++
      lo (lastSegC '/' expr1) ++ " and " ++ lo (lastSegC '/' expr2))) ∈
      (get_or_create_int31_relation lo g expr1 expr2).1 ∧
    (sappho ++ "actualization/interpretation/" ++ lastSegC '/' rel,
      intro "R21_identifies", rel) ∈
      (get_or_create_int31_relation lo g expr1 expr2).1 ∧
    (rel, intro "R21i_isIdentifiedBy",
      sappho ++ "actualization/interpretation/" ++ lastSegC '/' rel) ∈
      (get_or_create_int31_relation lo g expr1 expr2).1 ∧
    (sappho ++ "actualization/interpretation/" ++ lastSegC '/' rel,
      prov "wasDerivedFrom", WD_ENTITY ++ lastSegC '/' expr1) ∈
      (get_or_create_int31_relation lo g expr1 expr2).1 ∧
    (sappho ++ "actualization/interpretation/" ++ lastSegC '/' rel,
      prov "wasDerivedFrom", WD_ENTITY ++ lastSegC '/' expr2) ∈
      (get_or_create_int31_relation lo g expr1 expr2).1 := by
  have hs1 : '/' ∉ (lastSegC '/' expr1).data := lastSegC_no_sep '/' expr1
  have hs2 : '/' ∉ (lastSegC '/' expr2).data := lastSegC_no_sep '/' expr2
  have hrelne : rel ≠ sappho ++ "actualization/interpretation/" ++
      lastSegC '/' rel := by
    rcases hpy : pyLt (lastSegC '/' expr1) (lastSegC '/' expr2) with _ | _
    · rw [hrel, hpy]
      simp only [Bool.false_eq_true, if_false]
      exact relation_ne_act_interpretation _ (join_no_slash _ _ hs2 hs1)
    · rw [hrel, hpy]
      simp only [if_true]
      exact relation_ne_act_interpretation _ (join_no_slash _ _ hs1 hs2)
  unfold get_or_create_int31_relation
  dsimp only
  rw [if_neg hne, ← hrel, habs]
  simp only [Bool.false_eq_true, if_false]
  have hact2 : ∀ t ∈ addT (addT g
      (rel, RDF_type, intro "INT31_IntertextualRelation"))
      (rel, RDFS_label, lit ("Intertextual relation between " ++
        lo (lastSegC '/' expr1) ++ " and " ++ lo (lastSegC '/' expr2))),
      t.1 ≠ sappho ++ "actualization/interpretation/" ++ lastSegC '/' rel := by
    intro t ht
    rcases mem_addT.mp ht with ht2 | rfl
    · rcases mem_addT.mp ht2 with ht3 | rfl
      · exact hact t ht3
      · exact hrelne
    · exact hrelne
  have hc := add_interpretation_creates (addT (addT g
      (rel, RDF_type, intro "INT31_IntertextualRelation"))
      (rel, RDFS_label, lit ("Intertextual relation between " ++
        lo (lastSegC '/' expr1) ++ " and " ++ lo (lastSegC '/' expr2)))) rel
      ("Interpretation of intertextual relation between " ++
        lo (lastSegC '/' expr1) ++ " and " ++ lo (lastSegC '/' expr2))
      [expr1, expr2] hact2
  refine ⟨by trivial, ?_, ?_, hc.1, hc.2.1, ?_, ?_⟩
  · exact mem_add_interpretation _ _ _
      (mem_addT_of_mem self_mem_addT)
  · exact mem_add_interpretation _ _ _ self_mem_addT
  · exact hc.2.2 expr1 (by simp)
  · exact hc.2.2 expr2 (by simp)

/-- Witness for C4 at concrete inputs: creating the Q1-Q2 relation on
the empty graph returns the canonical URI and identifies it from the
interpretation-actualization node. -/
theorem c4_relation_interpretation_witness :
    (get_or_create_int31_relation (fun q => "W" ++ q) []
      (sappho ++ "expression/Q1") (sappho ++ "expression/Q2")).2 =
      some (sappho ++ "relation/Q1_Q2") ∧
    (sappho ++ "actualization/interpretation/" ++
        lastSegC '/' (sappho ++ "relation/Q1_Q2" : String),
      intro "R21_identifies", (sappho ++ "relation/Q1_Q2" : String)) ∈
      (get_or_create_int31_relation (fun q => "W" ++ q) []
        (sappho ++ "expression/Q1") (sappho ++ "expression/Q2")).1 := by
  have h := c4_relation_interpretation (fun q => "W" ++ q) []
    (sappho ++ "expression/Q1") (sappho ++ "expression/Q2") (by decide)
    (sappho ++ "relation/Q1_Q2") (by decide) (by decide) (by simp)
  exact ⟨h.1, h.2.2.2.1⟩

/-! ## Claim C3: the topic-processor scenario -/

set_option maxRecDepth 100000 in
set_option maxHeartbeats 4000000 in
/-- Counterexample for C3: in the scenario graph each of the three
topic actualization nodes is R24-linked to exactly one relation node,
not two: the actualizations of Q1 and Q2 to relation/Q1_Q2 only and
the actualization of Q3 to relation/Q1_Q3 only. -/
theorem c3_counterexample :
    objectsOf c3graph (sappho ++ "actualization/topic/Q100_Q1")
      (intro "R24i_isRelatedEntity") = [sappho ++ "relation/Q1_Q2"] ∧
    objectsOf c3graph (sappho ++ "actualization/topic/Q100_Q2")
      (intro "R24i_isRelatedEntity") = [sappho ++ "relation/Q1_Q2"] ∧
    objectsOf c3graph (sappho ++ "actualization/topic/Q100_Q3")
      (intro "R24i_isRelatedEntity") = [sappho ++ "relation/Q1_Q3"] ∧
    (objectsOf c3graph (sappho ++ "actualization/topic/Q100_Q1")
      (intro "R24i_isRelatedEntity")).length ≠ 2 := by
  decide

set_option maxRecDepth 100000 in
set_option maxHeartbeats 16000000 in
/-- Claim C3 as amended: running the topic processor on an empty graph
with rows in which works Q1, Q2, Q3 all share topic Q100 produces
exactly one feature node feature/topic/Q100, exactly three expression
nodes, exactly the three relation nodes Q1_Q2, Q1_Q3 and Q2_Q3, and
exactly 3 distinct topic actualization ids (one per
(feature, expression) pair); but each actualization node is R24-linked
to exactly one relation node, the relation in whose context it was
first created (Q1 and Q2 to relation/Q1_Q2, Q3 to relation/Q1_Q3),
because a repeat add_actualization for an existing id returns early,
and relation/Q2_Q3 is R24-linked to no actualization at all. -/
theorem c3_topic_scenario :
    subjectsOf c3graph RDF_type (intro "INT_Topic") =
      [sappho ++ "feature/topic/Q100"] ∧
    subjectsOf c3graph RDF_type (lrmoo "F2_Expression") =
      [sappho ++ "expression/Q1", sappho ++ "expression/Q2",
        sappho ++ "expression/Q3"] ∧
    subjectsOf c3graph RDF_type (intro "INT31_IntertextualRelation") =
      [sappho ++ "relation/Q1_Q2", sappho ++ "relation/Q1_Q3",
        sappho ++ "relation/Q2_Q3"] ∧
    (subjectsOf c3graph RDF_type (intro "INT2_ActualizationOfFeature")).filter
      (fun s => strHasPre (sappho ++ "actualization/topic/") s) =
      [sappho ++ "actualization/topic/Q100_Q1",
        sappho ++ "actualization/topic/Q100_Q2",
        sappho ++ "actualization/topic/Q100_Q3"] ∧
    objectsOf c3graph (sappho ++ "actualization/topic/Q100_Q1")
      (intro "R24i_isRelatedEntity") = [sappho ++ "relation/Q1_Q2"] ∧
    objectsOf c3graph (sappho ++ "actualization/topic/Q100_Q2")
      (intro "R24i_isRelatedEntity") = [sappho ++ "relation/Q1_Q2"] ∧
    objectsOf c3graph (sappho ++ "actualization/topic/Q100_Q3")
      (intro "R24i_isRelatedEntity") = [sappho ++ "relation/Q1_Q3"] ∧
    (objectsOf c3graph (sappho ++ "relation/Q2_Q3")
      (intro "R24_hasRelatedEntity")) = [] := by
  decide

/-! ## Membership lemmas for the grouping helpers -/

lemma foldl_pres_mem {α β : Type} {P : α → Prop} {f : α → β → α}
    (l : List β) (h : ∀ b ∈ l, ∀ a, P a → P (f a b)) :
    ∀ a, P a → P (l.foldl f a) := by
  induction l with
  | nil => intro a ha; exact ha
  | cons x xs ih =>
    intro a ha
    exact ih (fun b hb a2 ha2 => h b (List.mem_cons_of_mem x hb) a2 ha2) _
      (h x (List.mem_cons_self x xs) a ha)

lemma pairs2_mem {α : Type} (l : List α) :
    ∀ p ∈ pairs2 l, p.1 ∈ l ∧ p.2 ∈ l := by
  induction l with
  | nil => intro p hp; exact absurd hp (by simp [pairs2])
  | cons x xs ih =>
    intro p hp
    unfold pairs2 at hp
    rcases List.mem_append.mp hp with h | h
    · obtain ⟨y, hy, rfl⟩ := List.mem_map.mp h
      exact ⟨List.mem_cons_self x xs, List.mem_cons_of_mem x hy⟩
    · obtain ⟨h1, h2⟩ := ih p h
      exact ⟨List.mem_cons_of_mem x h1, List.mem_cons_of_mem x h2⟩

lemma pyInsertSorted_mem (x : String) (l : List String) :
    ∀ y ∈ pyInsertSorted x l, y = x ∨ y ∈ l := by
  induction l with
  | nil => intro y hy; simp only [pyInsertSorted, List.mem_singleton] at hy; exact Or.inl hy
  | cons z zs ih =>
    intro y hy
    unfold pyInsertSorted at hy
    split at hy
    · rcases List.mem_cons.mp hy with rfl | h
      · exact Or.inl rfl
      · exact Or.inr h
    · rcases List.mem_cons.mp hy with rfl | h
      · exact Or.inr (List.mem_cons_self y zs)
      · rcases ih y h with h2 | h2
        · exact Or.inl h2
        · exact Or.inr (List.mem_cons_of_mem z h2)

lemma pySort_mem (l : List String) : ∀ y ∈ pySort l, y ∈ l := by
  induction l with
  | nil => intro y hy; exact absurd hy (by simp [pySort])
  | cons x xs ih =>
    intro y hy
    unfold pySort at hy
    simp only [List.foldr_cons] at hy
    rcases pyInsertSorted_mem x _ y hy with rfl | h
    · exact List.mem_cons_self y xs
    · exact List.mem_cons_of_mem x (ih y h)

lemma insertGroup_good (Qk Q : String → Prop) :
    ∀ (mp : List (String × List String)) (t w : String),
    (∀ p ∈ mp, Qk p.1 ∧ ∀ x ∈ p.2, Q x) → Qk t → Q w →
    ∀ p ∈ insertGroup mp t w, Qk p.1 ∧ ∀ x ∈ p.2, Q x := by
  intro mp
  induction mp with
  | nil =>
    intro t w _ ht hw p hp
    simp only [insertGroup, List.mem_singleton] at hp
    subst hp
    refine ⟨ht, ?_⟩
    intro x hx
    simp only [List.mem_singleton] at hx
    subst hx
    exact hw
  | cons q qs ih =>
    intro t w hmp ht hw p hp
    obtain ⟨k, ws⟩ := q
    unfold insertGroup at hp
    split at hp
    · rcases List.mem_cons.mp hp with rfl | h
      · rename_i hk
        refine ⟨(hmp (k, ws) (List.mem_cons_self _ _)).1, ?_⟩
        intro x hx
        rcases List.mem_append.mp hx with h2 | h2
        · exact (hmp (k, ws) (List.mem_cons_self _ _)).2 x h2
        · simp only [List.mem_singleton] at h2
          subst h2
          exact hw
      · exact hmp p (List.mem_cons_of_mem _ h)
    · rcases List.mem_cons.mp hp with rfl | h
      · exact hmp _ (List.mem_cons_self _ _)
      · exact ih t w (fun r hr => hmp r (List.mem_cons_of_mem _ hr)) ht hw p h

lemma insertGroupSet_good (Qk Q : String → Prop) :
    ∀ (mp : List (String × List String)) (t w : String),
    (∀ p ∈ mp, Qk p.1 ∧ ∀ x ∈ p.2, Q x) → Qk t → Q w →
    ∀ p ∈ insertGroupSet mp t w, Qk p.1 ∧ ∀ x ∈ p.2, Q x := by
  intro mp
  induction mp with
  | nil =>
    intro t w _ ht hw p hp
    simp only [insertGroupSet, List.mem_singleton] at hp
    subst hp
    refine ⟨ht, ?_⟩
    intro x hx
    simp only [List.mem_singleton] at hx
    subst hx
    exact hw
  | cons q qs ih =>
    intro t w hmp ht hw p hp
    obtain ⟨k, ws⟩ := q
    unfold insertGroupSet at hp
    split at hp
    · rcases List.mem_cons.mp hp with rfl | h
      · refine ⟨(hmp (k, ws) (List.mem_cons_self _ _)).1, ?_⟩
        intro x hx
        dsimp only at hx
        split at hx
        · exact (hmp (k, ws) (List.mem_cons_self _ _)).2 x hx
        · rcases List.mem_append.mp hx with h2 | h2
          · exact (hmp (k, ws) (List.mem_cons_self _ _)).2 x h2
          · simp only [List.mem_singleton] at h2
            subst h2
            exact hw
      · exact hmp p (List.mem_cons_of_mem _ h)
    · rcases List.mem_cons.mp hp with rfl | h
      · exact hmp _ (List.mem_cons_self _ _)
      · exact ih t w (fun r hr => hmp r (List.mem_cons_of_mem _ hr)) ht hw p h

lemma groupRows_good (Qk Q : String → Prop) (rows : List (String × String))
    (h : ∀ r ∈ rows, Qk r.2 ∧ Q r.1) :
    ∀ p ∈ groupRows rows, Qk p.1 ∧ ∀ x ∈ p.2, Q x := by
  unfold groupRows
  exact foldl_pres_mem (P := fun mp => ∀ p ∈ mp, Qk p.1 ∧ ∀ x ∈ p.2, Q x)
    rows (fun r hr mp hmp =>
      insertGroup_good Qk Q mp r.2 r.1 hmp (h r hr).1 (h r hr).2)
    [] (fun p hp => absurd hp (by simp))

lemma groupRowsSet_good (Qk Q : String → Prop) (rows : List (String × String))
    (h : ∀ r ∈ rows, Qk r.2 ∧ Q r.1) :
    ∀ p ∈ groupRowsSet rows, Qk p.1 ∧ ∀ x ∈ p.2, Q x := by
  unfold groupRowsSet
  exact foldl_pres_mem (P := fun mp => ∀ p ∈ mp, Qk p.1 ∧ ∀ x ∈ p.2, Q x)
    rows (fun r hr mp hmp =>
      insertGroupSet_good Qk Q mp r.2 r.1 hmp (h r hr).1 (h r hr).2)
    [] (fun p hp => absurd hp (by simp))

/-! ## Canonicality of relation nodes -/

lemma relCanon_addT_other {g : Graph} {s p o : Node} (h : relCanon g)
    (hne : p ≠ RDF_type ∨ o ≠ intro "INT31_IntertextualRelation") :
    relCanon (addT g (s, p, o)) := by
  intro t' ht' hp ho
  rcases mem_addT.mp ht' with h2 | rfl
  · exact h t' h2 hp ho
  · rcases hne with hne | hne
    · exact absurd hp hne
    · exact absurd ho hne

lemma relCanon_addT_rel {g : Graph} {s p o : Node} (h : relCanon g)
    (hok : ∃ a b, goodStr a ∧ goodStr b ∧ pyLt b a = false ∧ s = relUri a b) :
    relCanon (addT g (s, p, o)) := by
  intro t' ht' hp ho
  rcases mem_addT.mp ht' with h2 | rfl
  · exact h t' h2 hp ho
  · exact hok

lemma relCanon_add_identifier {g : Graph} (e : Node) (q : String)
    (h : relCanon g) : relCanon (add_identifier g e q) := by
  unfold add_identifier
  dsimp only
  apply relCanon_addT_other _ (Or.inl (by decide))
  apply relCanon_addT_other _ (Or.inl (by decide))
  apply relCanon_addT_other _ (Or.inl (by decide))
  apply relCanon_addT_other _ (Or.inl (by decide))
  apply relCanon_addT_other _ (Or.inl (by decide))
  apply relCanon_addT_other _ (Or.inl (by decide))
  exact relCanon_addT_other h (Or.inr (by decide))

lemma relCanon_ensure_expression {g : Graph} (q : String) (l : Option String)
    (h : relCanon g) : relCanon (ensure_expression g q l).1 := by
  simp only [ensure_expression]
  split
  · exact h
  · dsimp only
    apply relCanon_addT_other _ (Or.inl (by decide))
    apply relCanon_addT_other _ (Or.inl (by decide))
    exact relCanon_addT_other h (Or.inr (by decide))

lemma relCanon_ensure_feature {g : Graph} (q : String) (cls : Node)
    (l p : String) (hcls : cls ≠ intro "INT31_IntertextualRelation")
    (h : relCanon g) : relCanon (ensure_feature g q cls l p).1 := by
  simp only [ensure_feature]
  split
  · exact h
  · dsimp only
    apply relCanon_add_identifier
    apply relCanon_addT_other _ (Or.inl (by decide))
    apply relCanon_addT_other _ (Or.inl (by decide))
    exact relCanon_addT_other h (Or.inr hcls)

lemma relCanon_interp_create {g : Graph} (tid lbl : String) (ds : List Node)
    (h : relCanon g) :
    relCanon (addT (addT (ds.foldl
      (fun g src => addT g
        (sappho ++ "actualization/interpretation/" ++ tid,
          prov "wasDerivedFrom", WD_ENTITY ++ lastSegC '/' src))
      (addT (addT g (sappho ++ "actualization/interpretation/" ++ tid,
          RDF_type, intro "INT2_ActualizationOfFeature"))
        (sappho ++ "actualization/interpretation/" ++ tid, RDFS_label,
          lit lbl)))
      (sappho ++ "feature/interpretation/" ++ tid,
        intro "R17i_featureIsActualizedIn",
        sappho ++ "actualization/interpretation/" ++ tid))
      (sappho ++ "actualization/interpretation/" ++ tid,
        intro "R17_actualizesFeature",
        sappho ++ "feature/interpretation/" ++ tid)) := by
  apply relCanon_addT_other _ (Or.inl (by decide))
  apply relCanon_addT_other _ (Or.inl (by decide))
  refine foldl_pres (P := relCanon)
    (fun a b ha => relCanon_addT_other ha (Or.inl (by decide))) ds _ ?_
  apply relCanon_addT_other _ (Or.inl (by decide))
  exact relCanon_addT_other h (Or.inr (by decide))

lemma relCanon_add_interpretation {g : Graph} (target : Node) (lbl : String)
    (ds : List Node) (h : relCanon g) :
    relCanon (add_interpretation g target lbl ds).1 := by
  unfold add_interpretation
  dsimp only
  apply relCanon_addT_other _ (Or.inl (by decide))
  apply relCanon_addT_other _ (Or.inl (by decide))
  split
  · split
    · exact h
    · exact relCanon_interp_create _ _ ds h
  · split
    · apply relCanon_addT_other _ (Or.inl (by decide))
      exact relCanon_addT_other h (Or.inr (by decide))
    · apply relCanon_interp_create
      apply relCanon_addT_other _ (Or.inl (by decide))
      exact relCanon_addT_other h (Or.inr (by decide))

set_option maxHeartbeats 1600000 in
lemma relCanon_add_actualization {g : Graph} (feature expression : Node)
    (lbl : String) (relation : Node) (h : relCanon g) :
    relCanon (add_actualization g feature expression lbl relation).1 := by
  unfold add_actualization
  dsimp only
  split
  · exact h
  · dsimp only
    apply relCanon_add_interpretation
    apply relCanon_addT_other _ (Or.inl (by decide))
    apply relCanon_addT_other _ (Or.inl (by decide))
    apply relCanon_addT_other _ (Or.inl (by decide))
    apply relCanon_addT_other _ (Or.inl (by decide))
    apply relCanon_addT_other _ (Or.inl (by decide))
    apply relCanon_addT_other _ (Or.inl (by decide))
    apply relCanon_addT_other _ (Or.inl (by decide))
    apply relCanon_addT_other _ (Or.inl (by decide))
    apply relCanon_addT_other _ (Or.inl (by decide))
    exact relCanon_addT_other h (Or.inr (by decide))

lemma relCanon_get_or_create {g : Graph} (lo : String → String)
    (expr1 expr2 : Node)
    (hu1 : '_' ∉ (lastSegC '/' expr1).data)
    (hu2 : '_' ∉ (lastSegC '/' expr2).data)
    (h : relCanon g) :
    relCanon (get_or_create_int31_relation lo g expr1 expr2).1 := by
  unfold get_or_create_int31_relation
  dsimp only
  by_cases heq : expr1 = expr2
  · rw [if_pos heq]
    exact h
  · rw [if_neg heq]
    rcases hpy : pyLt (lastSegC '/' expr1) (lastSegC '/' expr2) with _ | _
    · simp only [hpy, Bool.false_eq_true, if_false]
      split
      · exact h
      · dsimp only
        apply relCanon_add_interpretation
        apply relCanon_addT_other _ (Or.inl (by decide))
        apply relCanon_addT_rel h
        exact ⟨lastSegC '/' expr2, lastSegC '/' expr1,
          ⟨lastSegC_no_sep '/' expr2, hu2⟩, ⟨lastSegC_no_sep '/' expr1, hu1⟩,
          hpy, rfl⟩
    · simp only [hpy, if_true]
      split
      · exact h
      · dsimp only
        apply relCanon_add_interpretation
        apply relCanon_addT_other _ (Or.inl (by decide))
        apply relCanon_addT_rel h
        exact ⟨lastSegC '/' expr1, lastSegC '/' expr2,
          ⟨lastSegC_no_sep '/' expr1, hu1⟩, ⟨lastSegC_no_sep '/' expr2, hu2⟩,
          strLtB_asymm _ _ hpy, rfl⟩

lemma ensure_expression_uri (g : Graph) (q : String) (l : Option String) :
    (ensure_expression g q l).2 = sappho ++ "expression/" ++ q := by
  simp only [ensure_expression]
  split <;> rfl

lemma lastSegC_expr_uri (q : String) (hq : '/' ∉ q.data) :
    lastSegC '/' (sappho ++ "expression/" ++ q) = q :=
  lastSegC_of_eq '/' _ q (sappho ++ "expression").data rfl hq

lemma underscore_lastSeg_expr (g : Graph) (q : String) (l : Option String)
    (hq : goodStr q) :
    '_' ∉ (lastSegC '/' (ensure_expression g q l).2).data := by
  rw [ensure_expression_uri, lastSegC_expr_uri q hq.1]
  exact hq.2

lemma relCanon_processCluster (lo : String → String) (cls : Node)
    (suffix path : String) (rows : List (String × String)) {g : Graph}
    (hcls : cls ≠ intro "INT31_IntertextualRelation")
    (hrows : ∀ r ∈ rows, goodStr r.1)
    (h : relCanon g) : relCanon (processCluster lo cls suffix path rows g) := by
  unfold processCluster
  refine foldl_pres_mem (groupRows rows) ?_ g h
  intro tw htw g2 hg2
  have hworks : ∀ x ∈ tw.2, goodStr x :=
    (groupRows_good (fun _ => True) goodStr rows
      (fun r hr => ⟨trivial, hrows r hr⟩) tw htw).2
  dsimp only
  refine foldl_pres_mem (pairs2 tw.2) ?_ _
    (relCanon_ensure_feature _ cls _ _ hcls hg2)
  intro ww hww g3 hg3
  obtain ⟨hw1, hw2⟩ := pairs2_mem tw.2 ww hww
  have hg4 := relCanon_ensure_expression ww.1 (some (lo ww.1)) hg3
  have hg5 := relCanon_ensure_expression ww.2 (some (lo ww.2)) hg4
  have hu1 := underscore_lastSeg_expr g3 ww.1 (some (lo ww.1)) (hworks ww.1 hw1)
  have hu2 := underscore_lastSeg_expr (ensure_expression g3 ww.1
    (some (lo ww.1))).1 ww.2 (some (lo ww.2)) (hworks ww.2 hw2)
  have hg6 := relCanon_get_or_create lo _ _ hu1 hu2 hg5
  rcases hrel : (get_or_create_int31_relation lo (ensure_expression
      (ensure_expression g3 ww.1 (some (lo ww.1))).1 ww.2 (some (lo ww.2))).1
      (ensure_expression g3 ww.1 (some (lo ww.1))).2
      (ensure_expression (ensure_expression g3 ww.1 (some (lo ww.1))).1 ww.2
        (some (lo ww.2))).2).2 with _ | rel
  · simp only [hrel]
    exact hg6
  · simp only [hrel]
    apply relCanon_add_actualization
    apply relCanon_add_actualization
    split
    · exact hg6
    · apply relCanon_addT_other _ (Or.inl (by decide))
      exact relCanon_addT_other hg6 (Or.inl (by decide))

lemma relCanon_process_int31 (lo : String → String)
    (rows : List (String × String × String)) {g : Graph}
    (hrows : ∀ r ∈ rows, goodStr r.1 ∧ goodStr r.2.1)
    (h : relCanon g) : relCanon (process_int31 lo rows g) := by
  unfold process_int31
  dsimp only
  refine (foldl_pres_mem
    (P := fun st : Graph × List (String × String × String) => relCanon st.1)
    (rows.filter (fun r => r.1 ≠ r.2.1)) ?_ (g, []) h : _)
  intro r hr st hst
  have hgood := hrows r (List.mem_filter.mp hr).1
  by_cases hseen : r ∈ st.2
  · rw [if_pos hseen]
    exact hst
  · rw [if_neg hseen]
    rcases hpy : pyLt r.1 r.2.1 with _ | _
    · simp only [hpy, Bool.false_eq_true, if_false]
      split
      · exact hst
      · dsimp only
        apply relCanon_addT_other _ (Or.inl (by decide))
        apply relCanon_addT_rel hst
        exact ⟨r.2.1, r.1, hgood.2, hgood.1, hpy, rfl⟩
    · simp only [hpy, if_true]
      split
      · exact hst
      · dsimp only
        apply relCanon_addT_other _ (Or.inl (by decide))
        apply relCanon_addT_rel hst
        exact ⟨r.1, r.2.1, hgood.1, hgood.2, strLtB_asymm _ _ hpy, rfl⟩

lemma citations_pair_set_good (rows : List (String × String))
    (hrows : ∀ r ∈ rows, goodStr r.1 ∧ goodStr r.2) :
    ∀ x ∈ rows.foldl (fun acc r =>
      let pr := if pyLt r.2 r.1 then (r.2, r.1) else (r.1, r.2)
      if pr ∈ acc then acc else acc ++ [pr]) [],
      goodStr x.1 ∧ goodStr x.2 := by
  refine foldl_pres_mem
    (P := fun acc : List (String × String) =>
      ∀ x ∈ acc, goodStr x.1 ∧ goodStr x.2) rows ?_ [] (by simp)
  intro r hr acc hacc
  dsimp only
  split
  all_goals split
  any_goals exact hacc
  all_goals
    intro x hx
    rcases List.mem_append.mp hx with h2 | h2
    · exact hacc x h2
    · simp only [List.mem_singleton] at h2
      subst h2
      first
        | exact ⟨(hrows r hr).2, (hrows r hr).1⟩
        | exact ⟨(hrows r hr).1, (hrows r hr).2⟩

lemma relCanon_process_citations (lo : String → String)
    (rows : List (String × String)) {g : Graph}
    (hrows : ∀ r ∈ rows, goodStr r.1 ∧ goodStr r.2)
    (h : relCanon g) : relCanon (process_citations lo rows g) := by
  unfold process_citations
  dsimp only
  refine foldl_pres_mem _ ?_ g h
  intro ww hww g2 hg2
  have hgood := citations_pair_set_good rows hrows ww hww
  have hg4 := relCanon_ensure_expression ww.1 (some (lo ww.1)) hg2
  have hg5 := relCanon_ensure_expression ww.2 (some (lo ww.2)) hg4
  have hu1 := underscore_lastSeg_expr g2 ww.1 (some (lo ww.1)) hgood.1
  have hu2 := underscore_lastSeg_expr (ensure_expression g2 ww.1
    (some (lo ww.1))).1 ww.2 (some (lo ww.2)) hgood.2
  have hg6 := relCanon_get_or_create lo _ _ hu1 hu2 hg5
  rcases hrel : (get_or_create_int31_relation lo (ensure_expression
      (ensure_expression g2 ww.1 (some (lo ww.1))).1 ww.2 (some (lo ww.2))).1
      (ensure_expression g2 ww.1 (some (lo ww.1))).2
      (ensure_expression (ensure_expression g2 ww.1 (some (lo ww.1))).1 ww.2
        (some (lo ww.2))).2).2 with _ | rel
  · simp only [hrel]
    exact hg6
  · simp only [hrel]
    refine foldl_pres (fun a b ha => ?_) _ _ hg6
    dsimp only
    apply relCanon_addT_other _ (Or.inl (by decide))
    apply relCanon_addT_other _ (Or.inl (by decide))
    apply relCanon_addT_other _ (Or.inl (by decide))
    apply relCanon_addT_other _ (Or.inl (by decide))
    split
    all_goals split
    any_goals exact ha
    all_goals
      apply relCanon_addT_other _ (Or.inl (by decide))
      apply relCanon_addT_other _ (Or.inl (by decide))
      exact relCanon_addT_other ha (Or.inr (by decide))

lemma relCanon_pair_step (lo : String → String) {g : Graph} (feat : Node)
    (w1 w2 : String) (hw1 : goodStr w1) (hw2 : goodStr w2)
    (h : relCanon g) :
    relCanon (let e1 := ensure_expression g w1 (some (lo w1))
      let e2 := ensure_expression e1.1 w2 (some (lo w2))
      (get_or_create_int31_relation lo e2.1 e1.2 e2.2).1) := by
  dsimp only
  apply relCanon_get_or_create lo _ _
    (underscore_lastSeg_expr g w1 (some (lo w1)) hw1)
    (underscore_lastSeg_expr (ensure_expression g w1 (some (lo w1))).1 w2
      (some (lo w2)) hw2)
  exact relCanon_ensure_expression w2 (some (lo w2))
    (relCanon_ensure_expression w1 (some (lo w1)) h)

lemma relCanon_ensure_person_reference (lo : String → String) {g : Graph}
    (cq : String) (h : relCanon g) :
    relCanon (ensure_person_reference lo g cq).1 := by
  unfold ensure_person_reference
  dsimp only
  split
  · split
    · exact h
    · apply relCanon_addT_other _ (Or.inl (by decide))
      exact relCanon_addT_other h (Or.inr (by decide))
  · split
    · apply relCanon_add_identifier
      apply relCanon_addT_other _ (Or.inl (by decide))
      apply relCanon_addT_other _ (Or.inl (by decide))
      exact relCanon_addT_other h (Or.inr (by decide))
    · apply relCanon_addT_other _ (Or.inl (by decide))
      apply relCanon_addT_other _ (Or.inr (by decide))
      apply relCanon_add_identifier
      apply relCanon_addT_other _ (Or.inl (by decide))
      apply relCanon_addT_other _ (Or.inl (by decide))
      exact relCanon_addT_other h (Or.inr (by decide))

lemma relCanon_process_person (lo : String → String)
    (rows : List (String × String)) {g : Graph}
    (hrows : ∀ r ∈ rows, goodStr r.1)
    (h : relCanon g) : relCanon (process_person lo rows g) := by
  unfold process_person
  refine foldl_pres_mem (groupRowsSet rows) ?_ g h
  intro pw hpw g2 hg2
  have hworks : ∀ x ∈ pw.2, goodStr x :=
    (groupRowsSet_good (fun _ => True) goodStr rows
      (fun r hr => ⟨trivial, hrows r hr⟩) pw hpw).2
  dsimp only
  by_cases hlen : pw.2.length < 2
  · rw [if_pos hlen]
    exact hg2
  · rw [if_neg hlen]
    have hbase : relCanon (addT (addT (addT g2
        (sappho ++ "person/" ++ pw.1, RDF_type, ecrm "E21_Person"))
        (sappho ++ "person/" ++ pw.1, RDFS_label, lit (lo pw.1)))
        (sappho ++ "person/" ++ pw.1, OWL_sameAs, WD_ENTITY ++ pw.1)) := by
      apply relCanon_addT_other _ (Or.inl (by decide))
      apply relCanon_addT_other _ (Or.inl (by decide))
      exact relCanon_addT_other hg2 (Or.inr (by decide))
    refine foldl_pres_mem (pairs2 (pySort pw.2)) ?_ _ ?_
    · intro ww hww g3 hg3
      obtain ⟨hw1, hw2⟩ := pairs2_mem _ ww hww
      have hgw1 := hworks ww.1 (pySort_mem _ ww.1 hw1)
      have hgw2 := hworks ww.2 (pySort_mem _ ww.2 hw2)
      have hg4 := relCanon_ensure_expression ww.1 (some (lo ww.1)) hg3
      have hg5 := relCanon_ensure_expression ww.2 (some (lo ww.2)) hg4
      have hu1 := underscore_lastSeg_expr g3 ww.1 (some (lo ww.1)) hgw1
      have hu2 := underscore_lastSeg_expr (ensure_expression g3 ww.1
        (some (lo ww.1))).1 ww.2 (some (lo ww.2)) hgw2
      have hg6 := relCanon_get_or_create lo _ _ hu1 hu2 hg5
      rcases hrel : (get_or_create_int31_relation lo (ensure_expression
          (ensure_expression g3 ww.1 (some (lo ww.1))).1 ww.2
            (some (lo ww.2))).1
          (ensure_expression g3 ww.1 (some (lo ww.1))).2
          (ensure_expression (ensure_expression g3 ww.1 (some (lo ww.1))).1
            ww.2 (some (lo ww.2))).2).2 with _ | rel
      · simp only [hrel]
        exact hg6
      · simp only [hrel]
        apply relCanon_addT_other _ (Or.inl (by decide))
        apply relCanon_addT_other _ (Or.inl (by decide))
        apply relCanon_add_actualization
        apply relCanon_add_actualization
        apply relCanon_addT_other _ (Or.inl (by decide))
        apply relCanon_addT_other _ (Or.inl (by decide))
        apply relCanon_add_actualization
        apply relCanon_add_actualization
        split
        · exact hg6
        · apply relCanon_addT_other _ (Or.inl (by decide))
          exact relCanon_addT_other hg6 (Or.inl (by decide))
    · split
      · exact relCanon_add_identifier _ _ hbase
      · apply relCanon_addT_other _ (Or.inl (by decide))
        apply relCanon_addT_other _ (Or.inr (by decide))
        exact relCanon_add_identifier _ _ hbase

lemma relCanon_process_place (lo : String → String)
    (rows : List (String × String)) {g : Graph}
    (hrows : ∀ r ∈ rows, goodStr r.1)
    (h : relCanon g) : relCanon (process_place lo rows g) := by
  unfold process_place
  refine foldl_pres_mem (groupRowsSet rows) ?_ g h
  intro pw hpw g2 hg2
  have hworks : ∀ x ∈ pw.2, goodStr x :=
    (groupRowsSet_good (fun _ => True) goodStr rows
      (fun r hr => ⟨trivial, hrows r hr⟩) pw hpw).2
  dsimp only
  by_cases hlen : pw.2.length < 2
  · rw [if_pos hlen]
    exact hg2
  · rw [if_neg hlen]
    have hbase : relCanon (addT (addT (addT g2
        (sappho ++ "place/" ++ pw.1, RDF_type, ecrm "E53_Place"))
        (sappho ++ "place/" ++ pw.1, RDFS_label, lit (lo pw.1)))
        (sappho ++ "place/" ++ pw.1, OWL_sameAs, WD_ENTITY ++ pw.1)) := by
      apply relCanon_addT_other _ (Or.inl (by decide))
      apply relCanon_addT_other _ (Or.inl (by decide))
      exact relCanon_addT_other hg2 (Or.inr (by decide))
    refine foldl_pres_mem (pairs2 (pySort pw.2)) ?_ _ ?_
    · intro ww hww g3 hg3
      obtain ⟨hw1, hw2⟩ := pairs2_mem _ ww hww
      have hgw1 := hworks ww.1 (pySort_mem _ ww.1 hw1)
      have hgw2 := hworks ww.2 (pySort_mem _ ww.2 hw2)
      have hg4 := relCanon_ensure_expression ww.1 (some (lo ww.1)) hg3
      have hg5 := relCanon_ensure_expression ww.2 (some (lo ww.2)) hg4
      have hu1 := underscore_lastSeg_expr g3 ww.1 (some (lo ww.1)) hgw1
      have hu2 := underscore_lastSeg_expr (ensure_expression g3 ww.1
        (some (lo ww.1))).1 ww.2 (some (lo ww.2)) hgw2
      have hg6 := relCanon_get_or_create lo _ _ hu1 hu2 hg5
      rcases hrel : (get_or_create_int31_relation lo (ensure_expression
          (ensure_expression g3 ww.1 (some (lo ww.1))).1 ww.2
            (some (lo ww.2))).1
          (ensure_expression g3 ww.1 (some (lo ww.1))).2
          (ensure_expression (ensure_expression g3 ww.1 (some (lo ww.1))).1
            ww.2 (some (lo ww.2))).2).2 with _ | rel
      · simp only [hrel]
        exact hg6
      · simp only [hrel]
        apply relCanon_addT_other _ (Or.inl (by decide))
        apply relCanon_addT_other _ (Or.inl (by decide))
        apply relCanon_add_actualization
        apply relCanon_addT_other _ (Or.inl (by decide))
        apply relCanon_addT_other _ (Or.inl (by decide))
        apply relCanon_add_actualization
        split
        · exact hg6
        · apply relCanon_addT_other _ (Or.inl (by decide))
          exact relCanon_addT_other hg6 (Or.inl (by decide))
    · split
      · exact relCanon_add_identifier _ _ hbase
      · apply relCanon_addT_other _ (Or.inl (by decide))
        apply relCanon_addT_other _ (Or.inr (by decide))
        exact relCanon_add_identifier _ _ hbase

lemma work_refs_map_good (qids : List String) (rows : List (String × String))
    (hrows : ∀ r ∈ rows, goodStr r.1 ∧ goodStr r.2) :
    ∀ p ∈ rows.foldl (fun mp r =>
      if r.1 ∈ qids ∧ r.2 ∈ qids ∧
          r.2 ∉ (rows.map Prod.fst).filter (fun s => s ∈ qids) then
        insertGroupSet mp r.1 r.2
      else mp) [],
      goodStr p.1 ∧ ∀ x ∈ p.2, goodStr x := by
  refine foldl_pres_mem
    (P := fun mp : List (String × List String) =>
      ∀ p ∈ mp, goodStr p.1 ∧ ∀ x ∈ p.2, goodStr x) rows ?_ [] (by simp)
  intro r hr mp hmp
  dsimp only
  split
  · exact insertGroupSet_good goodStr goodStr mp r.1 r.2 hmp
      (hrows r hr).1 (hrows r hr).2
  · exact hmp

lemma relCanon_process_work_references (lo : String → String)
    (qids : List String) (rows : List (String × String)) {g : Graph}
    (hrows : ∀ r ∈ rows, goodStr r.1 ∧ goodStr r.2)
    (h : relCanon g) :
    relCanon (process_work_references lo qids rows g) := by
  unfold process_work_references
  refine foldl_pres_mem _ ?_ g h
  intro st hst g2 hg2
  have hgood := work_refs_map_good qids rows hrows st hst
  dsimp only
  have hfeat : relCanon (if memT g2 (sappho ++ "feature/work_ref/" ++ st.1,
      RDF_type, intro "INT18_Reference") then g2
    else addT (addT g2 (sappho ++ "feature/work_ref/" ++ st.1, RDF_type,
        intro "INT18_Reference"))
      (sappho ++ "feature/work_ref/" ++ st.1, RDFS_label,
        lit ("Reference to " ++ lo st.1 ++ " (expression)"))) := by
    split
    · exact hg2
    · apply relCanon_addT_other _ (Or.inl (by decide))
      exact relCanon_addT_other hg2 (Or.inr (by decide))
  refine foldl_pres_mem (pySort st.2) ?_ _
    (relCanon_ensure_expression st.1 (some (lo st.1)) hfeat)
  intro tgt htgt g3 hg3
  have hgt := hgood.2 tgt (pySort_mem _ tgt htgt)
  split
  · apply relCanon_get_or_create lo
    · exact underscore_lastSeg_expr _ _ _ hgood.1
    · exact underscore_lastSeg_expr _ _ _ hgt
    · exact relCanon_ensure_expression _ _ hg3
  · apply relCanon_addT_other _ (Or.inl (by decide))
    apply relCanon_addT_other _ (Or.inl (by decide))
    apply relCanon_add_actualization
    split
    all_goals split
    all_goals
      first
        | exact relCanon_get_or_create lo _ _
            (underscore_lastSeg_expr _ _ _ hgood.1)
            (underscore_lastSeg_expr _ _ _ hgt)
            (relCanon_ensure_expression _ _ hg3)
        | exact relCanon_addT_other
            (relCanon_addT_other
              (relCanon_get_or_create lo _ _
                (underscore_lastSeg_expr _ _ _ hgood.1)
                (underscore_lastSeg_expr _ _ _ hgt)
                (relCanon_ensure_expression _ _ hg3))
              (Or.inl (by decide)))
            (Or.inl (by decide))
lemma relCanon_process_characters (lo : String → String)
    (isP : String → Bool) (rows : List (String × String)) {g : Graph}
    (hrows : ∀ r ∈ rows, goodStr r.1)
    (h : relCanon g) : relCanon (process_characters lo isP rows g) := by
  unfold process_characters
  refine foldl_pres_mem (groupRowsSet rows) ?_ g h
  intro cw hcw g2 hg2
  have hworks : ∀ x ∈ cw.2, goodStr x :=
    (groupRowsSet_good (fun _ => True) goodStr rows
      (fun r hr => ⟨trivial, hrows r hr⟩) cw hcw).2
  dsimp only
  by_cases hlen : cw.2.length < 2
  · rw [if_pos hlen]
    exact hg2
  · rw [if_neg hlen]
    rcases hip : isP cw.1 with _ | _
    · simp only [hip, Bool.false_eq_true, if_false]
      refine foldl_pres_mem (pairs2 (pySort cw.2)) ?_ _ ?_
      · intro ww hww g3 hg3
        obtain ⟨hw1, hw2⟩ := pairs2_mem _ ww hww
        have hgw1 := hworks ww.1 (pySort_mem _ ww.1 hw1)
        have hgw2 := hworks ww.2 (pySort_mem _ ww.2 hw2)
        split
        · exact relCanon_get_or_create lo _ _
            (underscore_lastSeg_expr _ _ _ hgw1)
            (underscore_lastSeg_expr _ _ _ hgw2)
            (relCanon_ensure_expression _ _
              (relCanon_ensure_expression _ _ hg3))
        · apply relCanon_add_interpretation
          apply relCanon_add_interpretation
          apply relCanon_add_actualization
          apply relCanon_add_actualization
          split
          · exact relCanon_get_or_create lo _ _
              (underscore_lastSeg_expr _ _ _ hgw1)
              (underscore_lastSeg_expr _ _ _ hgw2)
              (relCanon_ensure_expression _ _
                (relCanon_ensure_expression _ _ hg3))
          · apply relCanon_addT_other _ (Or.inl (by decide))
            exact relCanon_addT_other
              (relCanon_get_or_create lo _ _
                (underscore_lastSeg_expr _ _ _ hgw1)
                (underscore_lastSeg_expr _ _ _ hgw2)
                (relCanon_ensure_expression _ _
                  (relCanon_ensure_expression _ _ hg3)))
              (Or.inl (by decide))
      · split
        · exact hg2
        · apply relCanon_add_identifier
          apply relCanon_addT_other _ (Or.inl (by decide))
          apply relCanon_addT_other _ (Or.inl (by decide))
          apply relCanon_addT_other _ (Or.inr (by decide))
          exact hg2
    · simp only [hip, eq_self_iff_true, if_true]
      refine foldl_pres_mem (pairs2 (pySort cw.2)) ?_ _ ?_
      · intro ww hww g3 hg3
        obtain ⟨hw1, hw2⟩ := pairs2_mem _ ww hww
        have hgw1 := hworks ww.1 (pySort_mem _ ww.1 hw1)
        have hgw2 := hworks ww.2 (pySort_mem _ ww.2 hw2)
        split
        · exact relCanon_get_or_create lo _ _
            (underscore_lastSeg_expr _ _ _ hgw1)
            (underscore_lastSeg_expr _ _ _ hgw2)
            (relCanon_ensure_expression _ _
              (relCanon_ensure_expression _ _ hg3))
        · apply relCanon_add_interpretation
          apply relCanon_add_interpretation
          apply relCanon_addT_other _ (Or.inl (by decide))
          apply relCanon_addT_other _ (Or.inl (by decide))
          apply relCanon_addT_other _ (Or.inl (by decide))
          apply relCanon_addT_other _ (Or.inl (by decide))
          apply relCanon_add_actualization
          apply relCanon_add_actualization
          split
          · exact relCanon_get_or_create lo _ _
              (underscore_lastSeg_expr _ _ _ hgw1)
              (underscore_lastSeg_expr _ _ _ hgw2)
              (relCanon_ensure_expression _ _
                (relCanon_ensure_expression _ _ hg3))
          · apply relCanon_addT_other _ (Or.inl (by decide))
            exact relCanon_addT_other
              (relCanon_get_or_create lo _ _
                (underscore_lastSeg_expr _ _ _ hgw1)
                (underscore_lastSeg_expr _ _ _ hgw2)
                (relCanon_ensure_expression _ _
                  (relCanon_ensure_expression _ _ hg3)))
              (Or.inl (by decide))
      · split
        · exact relCanon_ensure_person_reference lo cw.1 hg2
        · apply relCanon_add_identifier
          apply relCanon_addT_other _ (Or.inl (by decide))
          apply relCanon_addT_other _ (Or.inl (by decide))
          apply relCanon_addT_other _ (Or.inr (by decide))
          exact relCanon_ensure_person_reference lo cw.1 hg2

lemma relCanon_applyPass (p : Pass) {g : Graph} (hp : goodPass p)
    (h : relCanon g) : relCanon (applyPass p g) := by
  cases p with
  | int31 lo rows => exact relCanon_process_int31 lo rows hp h
  | plots lo rows =>
    exact relCanon_processCluster lo (intro "INT_Plot") " (plot)"
      "feature/plot" rows (by decide) hp h
  | topics lo rows =>
    exact relCanon_processCluster lo (intro "INT_Topic") " (topic)"
      "feature/topic" rows (by decide) hp h
  | motifs lo rows =>
    exact relCanon_processCluster lo (intro "INT_Motif") " (motif)"
      "feature/motif" rows (by decide) hp h
  | person lo rows => exact relCanon_process_person lo rows hp h
  | place lo rows => exact relCanon_process_place lo rows hp h
  | work_refs lo qids rows =>
    exact relCanon_process_work_references lo qids rows hp h
  | characters lo ip rows =>
    exact relCanon_process_characters lo ip rows hp h
  | citations lo rows => exact relCanon_process_citations lo rows hp h

lemma relCanon_applyPasses (ps : List Pass) {g : Graph}
    (hps : ∀ p ∈ ps, goodPass p) (h : relCanon g) :
    relCanon (applyPasses ps g) :=
  foldl_pres_mem ps (fun p hp g2 hg2 => relCanon_applyPass p (hps p hp) hg2) g h

lemma relCanon_of_no_int31 {g : Graph}
    (h : ∀ t ∈ g, t.2.2 ≠ intro "INT31_IntertextualRelation") :
    relCanon g :=
  fun t ht _ ho => absurd ho (h t ht)

lemma relCanon_build_graph : relCanon build_graph :=
  relCanon_of_no_int31 (by decide)

lemma relUri_inj (a b c d : String) (ha : '_' ∉ a.data) (hc : '_' ∉ c.data)
    (h : relUri a b = relUri c d) : a = c ∧ b = d := by
  unfold relUri at h
  exact underscore_join_inj a b c d ha hc (strAppend_cancel_left _ _ _ h)

lemma sorted_pair_eq (a b c d : String) (hba : pyLt b a = false)
    (hdc : pyLt d c = false)
    (hpair : (a = c ∧ b = d) ∨ (a = d ∧ b = c)) : a = c ∧ b = d := by
  rcases hpair with h | ⟨h1, h2⟩
  · exact h
  · have hdc2 : pyLt a b = false := by
      rw [h1, h2]
      exact hdc
    have hab : a = b := String.ext (strLtB_eq_of_both_false _ _ hdc2 hba)
    constructor
    · rw [hab]
      exact h2
    · rw [← h1]
      exact hab.symm

lemma relation_unique_of_relCanon {g : Graph} (hg : relCanon g)
    (u v : Node) (a b : String) (ha : goodStr a) (hb : goodStr b)
    (hu : (u, RDF_type, intro "INT31_IntertextualRelation") ∈ g)
    (hv : (v, RDF_type, intro "INT31_IntertextualRelation") ∈ g)
    (hun : u = relUri a b ∨ u = relUri b a)
    (hvn : v = relUri a b ∨ v = relUri b a) : u = v := by
  obtain ⟨a1, b1, ha1, hb1, hs1, he1⟩ := hg _ hu rfl rfl
  obtain ⟨a2, b2, ha2, hb2, hs2, he2⟩ := hg _ hv rfl rfl
  have he1 : u = relUri a1 b1 := he1
  have he2 : v = relUri a2 b2 := he2
  have pair1 : (a1 = a ∧ b1 = b) ∨ (a1 = b ∧ b1 = a) := by
    rcases hun with h | h
    · exact Or.inl (relUri_inj a1 b1 a b ha1.2 ha.2 (he1 ▸ h))
    · exact Or.inr (relUri_inj a1 b1 b a ha1.2 hb.2 (he1 ▸ h))
  have pair2 : (a2 = a ∧ b2 = b) ∨ (a2 = b ∧ b2 = a) := by
    rcases hvn with h | h
    · exact Or.inl (relUri_inj a2 b2 a b ha2.2 ha.2 (he2 ▸ h))
    · exact Or.inr (relUri_inj a2 b2 b a ha2.2 hb.2 (he2 ▸ h))
  have hpair : (a1 = a2 ∧ b1 = b2) ∨ (a1 = b2 ∧ b1 = a2) := by
    rcases pair1 with ⟨x1, y1⟩ | ⟨x1, y1⟩ <;> rcases pair2 with ⟨x2, y2⟩ | ⟨x2, y2⟩
    · exact Or.inl ⟨x1.trans x2.symm, y1.trans y2.symm⟩
    · exact Or.inr ⟨x1.trans y2.symm, y1.trans x2.symm⟩
    · exact Or.inr ⟨x1.trans y2.symm, y1.trans x2.symm⟩
    · exact Or.inl ⟨x1.trans x2.symm, y1.trans y2.symm⟩
  obtain ⟨hx, hy⟩ := sorted_pair_eq a1 b1 a2 b2 hs1 hs2 hpair
  rw [he1, he2, hx, hy]

lemma get_or_create_snd (lo : String → String) (g : Graph) (A B : Node) :
    (get_or_create_int31_relation lo g A B).2 =
    if A = B then none
    else some (if pyLt (lastSegC '/' A) (lastSegC '/' B)
      then relUri (lastSegC '/' A) (lastSegC '/' B)
      else relUri (lastSegC '/' B) (lastSegC '/' A)) := by
  unfold get_or_create_int31_relation
  split
  · rfl
  · dsimp only
    split
    all_goals split
    all_goals rfl

lemma get_or_create_symm (lo : String → String) (g : Graph) (A B : Node) :
    (get_or_create_int31_relation lo g A B).2 =
    (get_or_create_int31_relation lo g B A).2 := by
  rw [get_or_create_snd, get_or_create_snd]
  by_cases hAB : A = B
  · subst hAB
    rfl
  · have hBA : ¬ B = A := fun h2 => hAB h2.symm
    rw [if_neg hAB, if_neg hBA]
    rcases h12 : pyLt (lastSegC '/' A) (lastSegC '/' B) with _ | _
    · rcases h21 : pyLt (lastSegC '/' B) (lastSegC '/' A) with _ | _
      · have hseg : lastSegC '/' A = lastSegC '/' B :=
          String.ext (strLtB_eq_of_both_false _ _ h12 h21)
        rw [hseg]
      · simp only [h12, h21, Bool.false_eq_true, if_false, if_true]
    · have h21 : pyLt (lastSegC '/' B) (lastSegC '/' A) = false :=
        strLtB_asymm _ _ h12
      simp only [h12, h21, Bool.false_eq_true, if_false, if_true]

/-- C1: get_or_create_int31_relation is symmetric in its two expression
arguments, returns for distinct expressions the canonical relation URI
built from the two trailing ids in sorted order, returns None for an
expression paired with itself, and after any sequence of processor
passes over the initial graph (with well-formed ids in the rows) at most
one INT31 relation node exists per unordered pair of ids. -/
theorem c1_canonical_relation_identity
    (lo : String → String) (g : Graph) (A B : Node) (hAB : A ≠ B)
    (ps : List Pass) (hps : ∀ p ∈ ps, goodPass p)
    (u v : Node) (a b : String) (ha : goodStr a) (hb : goodStr b)
    (hu : (u, RDF_type, intro "INT31_IntertextualRelation") ∈
      applyPasses ps build_graph)
    (hv : (v, RDF_type, intro "INT31_IntertextualRelation") ∈
      applyPasses ps build_graph)
    (hun : u = relUri a b ∨ u = relUri b a)
    (hvn : v = relUri a b ∨ v = relUri b a) :
    (get_or_create_int31_relation lo g A B).2 =
      (get_or_create_int31_relation lo g B A).2 ∧
    (get_or_create_int31_relation lo g A A).2 = none ∧
    (get_or_create_int31_relation lo g A B).2 =
      some (if pyLt (lastSegC '/' A) (lastSegC '/' B)
        then relUri (lastSegC '/' A) (lastSegC '/' B)
        else relUri (lastSegC '/' B) (lastSegC '/' A)) ∧
    u = v := by
  refine ⟨get_or_create_symm lo g A B, ?_, ?_, ?_⟩
  · rw [get_or_create_snd]
    exact if_pos rfl
  · rw [get_or_create_snd]
    exact if_neg hAB
  · exact relation_unique_of_relCanon
      (relCanon_applyPasses ps hps relCanon_build_graph)
      u v a b ha hb hu hv hun hvn

set_option maxRecDepth 10000 in
theorem c1_canonical_relation_identity_witness :
    (get_or_create_int31_relation (fun q => q) [] "A" "B").2 =
      (get_or_create_int31_relation (fun q => q) [] "B" "A").2 ∧
    (get_or_create_int31_relation (fun q => q) [] "A" "A").2 = none ∧
    (get_or_create_int31_relation (fun q => q) [] "A" "B").2 =
      some (if pyLt (lastSegC '/' "A") (lastSegC '/' "B")
        then relUri (lastSegC '/' "A") (lastSegC '/' "B")
        else relUri (lastSegC '/' "B") (lastSegC '/' "A")) ∧
    relUri "Q1" "Q2" = relUri "Q1" "Q2" :=
  c1_canonical_relation_identity (fun q => q) [] "A" "B" (by decide)
    [Pass.topics (fun q => q) [("Q1", "Q100"), ("Q2", "Q100")]]
    (fun p hp => by
      simp only [List.mem_singleton] at hp
      subst hp
      intro r hr
      simp only [List.mem_cons, List.not_mem_nil, or_false] at hr
      rcases hr with rfl | rfl
      · exact ⟨by decide, by decide⟩
      · exact ⟨by decide, by decide⟩)
    (relUri "Q1" "Q2") (relUri "Q1" "Q2") "Q1" "Q2"
    ⟨by decide, by decide⟩ ⟨by decide, by decide⟩
    (by decide) (by decide) (Or.inl rfl) (Or.inl rfl)
